import Mathlib

/-!
Verification of the `ebpub.db.schemafilters` filter-chain subsystem
(OpenBlock).  The definitions below are a shallow embedding of
`src/ebpub/ebpub/db/schemafilters.py`: each Python class or method is
rendered as a Lean definition with the same name where possible.
Python exceptions are rendered with `Except`; the Django `SortedDict`
container underlying `FilterChain` is rendered as an association list
kept in insertion order.
-/

set_option maxRecDepth 4000

namespace Schemafilters

/-! ### Dates.

Embedding of the parts of Python's `datetime.date` and `calendar`
modules that `schemafilters.py` uses: construction/validation,
`strftime('%Y-%m-%d')`, one-day increment (`timedelta(days=1)`),
`calendar.monthrange`, and `date.replace(day=...)`.
-/

structure Date where
  year : Nat
  month : Nat
  day : Nat
deriving DecidableEq, Repr

def isLeapYear (y : Nat) : Bool :=
  (y % 4 == 0 && y % 100 != 0) || y % 400 == 0

def daysInMonth (y m : Nat) : Nat :=
  if m == 2 then (if isLeapYear y then 29 else 28)
  else if m == 4 || m == 6 || m == 9 || m == 11 then 30
  else 31

def Date.valid (d : Date) : Bool :=
  1 ≤ d.year && 1 ≤ d.month && d.month ≤ 12 && 1 ≤ d.day && d.day ≤ daysInMonth d.year d.month

/-- Days in the years `1 .. y-1`, as in Python's `date.toordinal`
helper `_days_before_year`. -/
def daysBeforeYear (y : Nat) : Nat :=
  let p := y - 1
  365 * p + p / 4 + p / 400 - p / 100

/-- Days in months `1 .. m-1` of year `y`, as Python's
`_DAYS_BEFORE_MONTH` table plus the leap-day adjustment. -/
def daysBeforeMonth (y : Nat) (m : Nat) : Nat :=
  (match m with
   | 1 => 0 | 2 => 31 | 3 => 59 | 4 => 90 | 5 => 120 | 6 => 151
   | 7 => 181 | 8 => 212 | 9 => 243 | 10 => 273 | 11 => 304 | 12 => 334
   | _ => 0) +
  (if 2 < m && isLeapYear y then 1 else 0)

/-- Python's `date.toordinal`: day 1 is 0001-01-01. -/
def Date.toordinal (d : Date) : Nat :=
  daysBeforeYear d.year + daysBeforeMonth d.year d.month + d.day

/-- Python's `date.weekday`: Monday is 0.  0001-01-01 (ordinal 1) was a
Monday. -/
def Date.weekday (d : Date) : Nat :=
  (d.toordinal + 6) % 7

/-- `calendar.monthrange(y, m)`: the weekday of the first day of the
month and the number of days in the month. -/
def monthrange (y m : Nat) : Nat × Nat :=
  (Date.weekday ⟨y, m, 1⟩, daysInMonth y m)

/-- `d + datetime.timedelta(days=1)` for a valid date `d`. -/
def Date.nextDay (d : Date) : Date :=
  if d.day < daysInMonth d.year d.month then ⟨d.year, d.month, d.day + 1⟩
  else if d.month < 12 then ⟨d.year, d.month + 1, 1⟩
  else ⟨d.year + 1, 1, 1⟩

/-- `d.replace(day := k)`: Python raises `ValueError` when the result is
out of range, which we render as `none`. -/
def Date.replaceDay (d : Date) (k : Nat) : Option Date :=
  let r : Date := ⟨d.year, d.month, k⟩
  if r.valid then some r else none

/-! ### String helpers used by the source. -/

def natDigits : Nat → List Char
  | n =>
    let rec go (fuel n : Nat) (acc : List Char) : List Char :=
      match fuel with
      | 0 => acc
      | fuel + 1 =>
        if n == 0 then acc
        else go fuel (n / 10) (Char.ofNat (48 + n % 10) :: acc)
    if n == 0 then ['0'] else go 12 n []

def natToStr (n : Nat) : String := String.mk (natDigits n)

/-- Zero-pad to width `w`, as `strftime` does for `%Y`/`%m`/`%d`. -/
def padNum (w n : Nat) : String :=
  let s := natDigits n
  String.mk (List.replicate (w - s.length) '0' ++ s)

/-- `d.strftime('%Y-%m-%d')`. -/
def Date.ymd (d : Date) : String :=
  padNum 4 d.year ++ "-" ++ padNum 2 d.month ++ "-" ++ padNum 2 d.day

/-- Django `dateformat` `N`: month abbreviation in Associated Press
style. -/
def apMonth (m : Nat) : String :=
  match m with
  | 1 => "Jan." | 2 => "Feb." | 3 => "March" | 4 => "April"
  | 5 => "May" | 6 => "June" | 7 => "July" | 8 => "Aug."
  | 9 => "Sept." | 10 => "Oct." | 11 => "Nov." | 12 => "Dec."
  | _ => ""

/-- Django `dateformat.format(d, 'N j, Y')`. -/
def djangoNjY (d : Date) : String :=
  apMonth d.month ++ " " ++ natToStr d.day ++ ", " ++ natToStr d.year

/-- Python `str.title()` restricted to ASCII: the first alphabetic
character of every alphabetic run is uppercased, the rest lowercased. -/
def pyTitleGo : Bool → List Char → List Char
  | _, [] => []
  | prevAlpha, c :: cs =>
    if c.isAlpha then
      (if prevAlpha then c.toLower else c.toUpper) :: pyTitleGo true cs
    else
      c :: pyTitleGo false cs

def pyTitle (s : String) : String :=
  String.mk (pyTitleGo false s.toList)

def isDigitChar (c : Char) : Bool := '0' ≤ c && c ≤ '9'

def digitsToNat (cs : List Char) : Nat :=
  cs.foldl (fun acc c => acc * 10 + (c.toNat - 48)) 0

/-- Python `int(s)` for the plain digit strings date parsing feeds it;
`none` on anything that is not a nonempty digit string. -/
def pyInt (s : String) : Option Nat :=
  let cs := s.toList
  if cs ≠ [] && cs.all isDigitChar then some (digitsToNat cs) else none

/-- Split a list at every occurrence of separator `sep`. -/
def splitCharList (sep : Char) : List Char → List (List Char)
  | [] => [[]]
  | c :: cs =>
    let rest := splitCharList sep cs
    if c == sep then [] :: rest
    else match rest with
      | [] => [[c]]
      | r :: rs => (c :: r) :: rs

def splitOnChar (sep : Char) (s : String) : List String :=
  (splitCharList sep s.toList).map String.mk

/-- Python `s.split(sep, 1)`: split at the first occurrence only;
`none` when the separator does not occur (tuple unpacking then raises
`ValueError` in the source). -/
def splitOnce (sep : Char) (s : String) : Option (String × String) :=
  let rec go : List Char → Option (List Char × List Char)
    | [] => none
    | c :: cs =>
      if c == sep then some ([], cs)
      else match go cs with
        | none => none
        | some (a, b) => some (c :: a, b)
  match go s.toList with
  | none => none
  | some (a, b) => some (String.mk a, String.mk b)

def isSpaceChar (c : Char) : Bool :=
  c == ' ' || c == '\t' || c == '\n' || c == '\r'

/-- Python `s.strip()` restricted to ASCII whitespace. -/
def pyStrip (s : String) : String :=
  String.mk (((s.toList.dropWhile isSpaceChar).reverse.dropWhile isSpaceChar).reverse)

/-- Python `s.rstrip('/')`. -/
def rstripSlash (s : String) : String :=
  String.mk ((s.toList.reverse.dropWhile (fun c => c == '/')).reverse)

def hexVal (c : Char) : Option Nat :=
  if '0' ≤ c && c ≤ '9' then some (c.toNat - 48)
  else if 'a' ≤ c && c ≤ 'f' then some (c.toNat - 87)
  else if 'A' ≤ c && c ≤ 'F' then some (c.toNat - 55)
  else none

/-- `urllib.unquote` on ASCII input: decode `%XX` escapes, leaving
malformed escapes untouched. -/
def unquoteGo : Nat → List Char → List Char
  | 0, cs => cs
  | _ + 1, [] => []
  | fuel + 1, c :: cs =>
    if c == '%' then
      match cs with
      | h1 :: h2 :: rest =>
        match hexVal h1, hexVal h2 with
        | some v1, some v2 => Char.ofNat (16 * v1 + v2) :: unquoteGo fuel rest
        | _, _ => c :: unquoteGo fuel cs
      | _ => c :: unquoteGo fuel cs
    else c :: unquoteGo fuel cs

def unquote (s : String) : String :=
  String.mk (unquoteGo s.toList.length s.toList)

/-- Python `s.replace('+', ' ')`. -/
def plusToSpace (s : String) : String :=
  String.mk (s.toList.map (fun c => if c == '+' then ' ' else c))

/-- Parse of `datetime.date(*map(int, s.split('-')))` as used by
`DateFilter.__init__`: `none` stands for the `ValueError`/`TypeError`
the source catches. -/
def parseDateStr (s : String) : Option Date :=
  match (splitOnChar '-' s).map pyInt with
  | [some y, some m, some d] =>
    let r : Date := ⟨y, m, d⟩
    if r.valid then some r else none
  | _ => none

def intToStr (i : Int) : String :=
  if i < 0 then "-" ++ natToStr i.natAbs else natToStr i.natAbs

/-! ### External collaborators.

The Django model objects (`Schema`, `SchemaField`, `Lookup`,
`Location`, `LocationType`, `Block`), the HTTP request and the view
context are collaborators of `schemafilters.py`; only the attributes the
source reads are modelled. -/

structure Schema where
  slug : String
  date_name : String
deriving DecidableEq, Repr

structure SchemaField where
  id : Nat
  name : String
  slug : String
  pretty_name : String
  pretty_name_plural : String
  is_lookup : Bool
  ftype : String
  is_searchable : Bool
deriving DecidableEq, Repr

/-- `sf.is_type('bool')`. -/
def SchemaField.isTypeBool (sf : SchemaField) : Bool := sf.ftype == "bool"

structure Lookup where
  schema_field : SchemaField
  slug : String
  name : String
deriving DecidableEq, Repr

structure LocationType where
  slug : String
  name : String
deriving DecidableEq, Repr

structure Location where
  id : Nat
  slug : String
  name : String
  location_type : LocationType
deriving DecidableEq, Repr

/-- `ebpub.streets.models.Block`; `number_str` and `dir_url_bit_str`
stand for the external methods `block.number()` and
`block.dir_url_bit()` (their code is outside this repository). -/
structure Block where
  city : String
  street_slug : String
  pretty_name : String
  from_num : Int
  to_num : Int
  number_str : String
  dir_url_bit_str : String
deriving DecidableEq, Repr

/-- The HTTP request: `schemafilters.py` reads only `request.path`;
`cookie_radius` models the cookie consulted by the external
`block_radius_value`. -/
structure Request where
  path : String
  cookie_radius : Option String
deriving DecidableEq, Repr

/-- The view-context dict: the keys `schemafilters.py` reads, plus the
Lookup table (`models.Lookup.objects`) and the multi-city deployment
flag (`get_metro()['multiple_cities']`), which the source reaches
through globals. -/
structure Context where
  schema : Option Schema
  block_radius : Option String
  db_lookups : List Lookup
  multiple_cities : Bool
deriving DecidableEq, Repr

/-! ### Errors. -/

/-- `FilterError(msg, url)` and its subclass `DuplicateFilterError`;
`pyError` renders a Python exception that `schemafilters.py` itself
neither raises nor catches (e.g. a `ValueError` escaping from
`date.replace`). -/
inductive FiltErr where
  | filterError (msg : String) (url : Option String)
  | duplicateFilterError (key : String)
  | pyError (msg : String)
deriving DecidableEq, Repr

/-! ### Filters.

One record type stands for all `NewsitemFilter` subclasses; `kind`
records the class, and class-specific instance attributes are optional
fields left `none` where the class does not set them. -/

inductive FKind where
  | schemaKind | attribute | textsearch | boolattr | lookup
  | location | block | dateKind | pubdate
deriving DecidableEq, Repr

structure Filt where
  kind : FKind
  sort_value : Int
  name : Option String := none
  argname : Option String := none
  url : Option String := none
  value : Option String := none
  label : Option String := none
  short_value : Option String := none
  gotArgs : Bool := false
  schemaRef : Option Schema := none
  schemafield : Option SchemaField := none
  attValue : Option String := none
  attQuery : Option String := none
  realVal : Option (Option Bool) := none
  look : Option Lookup := none
  startDate : Option Date := none
  endDate : Option Date := none
  gteBound : Option Date := none
  ltBound : Option Date := none
  dateFieldName : Option String := none
  locationTypeSlug : Option String := none
  locationSlug : Option String := none
  locationObject : Option Location := none
  blockObject : Option Block := none
  citySlug : Option String := none
  streetSlug : Option String := none
  blockRange : Option String := none
  blockRadius : Option String := none
  urlToBlockArgs : Option (List String) := none
deriving DecidableEq, Repr

/-- The `_sort_value` class attribute each `NewsitemFilter` subclass
declares. -/
def kindSortValue : FKind → Int
  | .schemaKind => -9999
  | .dateKind => 1
  | .pubdate => 1
  | .boolattr => 100
  | .attribute => 101
  | .location => 200
  | .block => 200
  | .lookup => 900
  | .textsearch => 1000

/-- `SchemaFilter.__init__`. -/
def SchemaFilter.make (s : Schema) : Filt :=
  { kind := .schemaKind
    sort_value := -9999
    name := some "schema"
    schemaRef := some s }

/-- Values `AttributeFilter.__init__` may receive positionally.  The
source also formats `datetime.time`/`datetime.datetime` values; no
caller in this repository passes them and they are not modelled. -/
inductive AttVal where
  | str (s : String)
  | date (d : Date)
deriving DecidableEq, Repr

def attValStr : AttVal → String
  | .str s => s
  | .date d => d.ymd

/-- `AttributeFilter.__init__` (base class; `kind`/`sort_value` are
overwritten by subclasses). -/
def AttributeFilter.base (sf : SchemaField) (args : List AttVal) : Filt :=
  let f : Filt :=
    { kind := .attribute
      sort_value := 101
      name := some sf.name
      argname := some ("by-" ++ sf.name)
      url := some ("by-" ++ sf.slug ++ "=")
      value := some ""
      short_value := some ""
      label := some sf.pretty_name
      schemafield := some sf }
  match args with
  | [] => f
  | a :: _ =>
    { f with
      attValue := some (attValStr a)
      gotArgs := true
      url := some ("by-" ++ sf.slug ++ "=" ++ attValStr a) }

/-- `AttributeFilter` used directly (the "needs a value" placeholder in
`FilterChain.add`). -/
def AttributeFilter.make (sf : SchemaField) : Filt :=
  AttributeFilter.base sf []

/-- `TextSearchFilter.__init__`. -/
def TextSearchFilter.make (sf : SchemaField) (args : List String) :
    Except FiltErr Filt :=
  let base := AttributeFilter.base sf (args.map AttVal.str)
  if args.isEmpty then
    .error (.filterError "Text search lookup requires search params" none)
  else
    let q := String.intercalate ", " args
    .ok { base with
          kind := .textsearch
          sort_value := 1000
          label := some sf.pretty_name
          attQuery := some q
          short_value := some q
          value := some q
          url := some ("by-" ++ sf.slug ++ "=" ++ q) }

/-- `BoolFilter.__init__`.  The source computes
`{'yes': True, 'no': False, 'na': None}.get(slug, slug)` and then
rejects any result not in `(True, False, None)`; since a string never
equals those, this is exactly "reject any token other than the three
slugs". -/
def BoolFilter.make (sf : SchemaField) (args : List String) :
    Except FiltErr Filt :=
  let base := AttributeFilter.base sf (args.map AttVal.str)
  let base := { base with kind := .boolattr, sort_value := 100 }
  if args.length > 1 then
    .error (.filterError ("Invalid boolean arg " ++ String.intercalate "," args) none)
  else
    match args with
    | [slug] =>
      let rv : Option (Option Bool) :=
        if slug == "yes" then some (some true)
        else if slug == "no" then some (some false)
        else if slug == "na" then some none
        else none
      match rv with
      | some v =>
        .ok { base with
              realVal := some v
              gotArgs := true
              url := some ("by-" ++ sf.slug ++ "=" ++ slug) }
      | none => .error (.filterError ("Invalid boolean value " ++ slug) none)
    | _ =>
      .ok { base with
            gotArgs := false
            value := some ("By whether they " ++ sf.pretty_name_plural) }

/-- A positional argument of `LookupFilter.__init__`: a slug string, a
`models.Lookup` instance, or any other object (which the ORM lookup by
slug then fails to find: `DoesNotExist`). -/
inductive LookArg where
  | slug (s : String)
  | obj (l : Lookup)
  | badObj
deriving DecidableEq, Repr

/-- `LookupFilter.__init__`; `db` is the external
`models.Lookup.objects` table, looked up by schema-field id and slug. -/
def LookupFilter.make (db : List Lookup) (sf : SchemaField)
    (args : List LookArg) : Except FiltErr Filt :=
  let base := AttributeFilter.base sf
    (args.map fun a => match a with
      | .slug s => AttVal.str s
      | .obj l => AttVal.str l.slug
      | .badObj => AttVal.str "")
  let base := { base with kind := .lookup, sort_value := 900 }
  match args with
  | [] => .ok { base with gotArgs := false, look := none }
  | a :: _ =>
    let found : Except FiltErr (Lookup × String) :=
      match a with
      | .obj l => .ok (l, l.slug)
      | .badObj => .error (.filterError "No such lookup" none)
      | .slug s =>
        match db.find? (fun lk => lk.schema_field.id == sf.id && lk.slug == s) with
        | some l => .ok (l, s)
        | none => .error (.filterError ("No such lookup " ++ s) none)
    match found with
    | .error e => .error e
    | .ok (l, s) =>
      .ok { base with
            gotArgs := true
            look := some l
            value := some l.name
            short_value := some l.name
            url := some ("by-" ++ sf.slug ++ "=" ++ s) }

/-- `LocationFilter._update_location`. -/
def LocationFilter.updateLocation (f : Filt) (loc : Location) : Filt :=
  { f with
    locationSlug := some loc.slug
    locationTypeSlug := some loc.location_type.slug
    label := some loc.location_type.name
    short_value := some loc.name
    value := some loc.name
    url := some ("locations=" ++ loc.location_type.slug ++ "," ++ loc.slug)
    locationObject := some loc }

/-- `LocationFilter.__init__`.  `location` and `location_type` are the
keyword arguments; `args` the positional ones. -/
def LocationFilter.make (args : List String) (location : Option Location)
    (location_type : Option LocationType) : Except FiltErr Filt :=
  let base : Filt :=
    { kind := .location
      sort_value := 200
      name := some "location"
      argname := some "locations" }
  match location with
  | some loc => .ok { LocationFilter.updateLocation base loc with gotArgs := true }
  | none =>
    let tslug : Except FiltErr String :=
      match location_type with
      | some lt => .ok lt.slug
      | none =>
        match args with
        | [] => .error (.filterError "not enough args" none)
        | a :: _ => .ok a
    match tslug with
    | .error e => .error e
    | .ok ts =>
      let f := { base with
                 locationTypeSlug := some ts
                 url := some ("locations=" ++ ts)
                 value := some ("Choose " ++ pyTitle ts) }
      match args[1]? with
      | some lslug => .ok { f with locationSlug := some lslug, gotArgs := true }
      | none => .ok { f with gotArgs := false }

/-! ### BlockFilter and its external helpers.

`radius_urlfragment`, `radius_from_urlfragment`, `radius_url`
(`ebpub.utils.view_utils`), `block_radius_value` (`ebpub.db.utils`) and
`BLOCK_URL_REGEX` (`ebpub.db.constants`) are code of this repository
that is not under `src/`; they are modelled from the spec. -/

/-- Modelled from the spec: `radius_urlfragment` from
`ebpub.utils.view_utils` is not under `src/`; it renders a radius value
as the URL fragment used in `streets=...` clauses. -/
def radius_urlfragment (radius : String) : String :=
  radius ++ "-blocks"

/-- Modelled from the spec: `radius_from_urlfragment` from
`ebpub.utils.view_utils` is not under `src/`; it recovers the radius
value from its URL fragment, failing (Python `ValueError`, rendered as
`none`) on anything else. -/
def radius_from_urlfragment (frag : String) : Option String :=
  let cs := frag.toList
  let ds := cs.takeWhile isDigitChar
  if ds ≠ [] && cs.drop ds.length == "-blocks".toList then
    some (String.mk ds)
  else none

/-- Modelled from the spec: `block_radius_value` from `ebpub.db.utils`
is not under `src/`; per the spec it yields the radius from a cookie
when one is set, else a concrete default radius value. -/
def block_radius_value (req : Request) : String :=
  match req.cookie_radius with
  | some r => r
  | none => "8"

/-- Modelled from the spec: `radius_url` from `ebpub.utils.view_utils`
is not under `src/`; per the spec it builds a redirect URL that encodes
the given radius. -/
def radius_url (path radius : String) : String :=
  path ++ radius_urlfragment radius ++ "/"

/-- Modelled from the spec: `BLOCK_URL_REGEX` from `ebpub.db.constants`
is not under `src/`; per the spec a block range is a street-address
range (`from`-`to` house numbers with an optional direction bit), and
the regex groups feed `url_to_block`. -/
def blockRangeGroups (s : String) : Option (List String) :=
  let cs := s.toList
  let d1 := cs.takeWhile isDigitChar
  let rest := cs.drop d1.length
  match rest with
  | '-' :: rest2 =>
    let d2 := rest2.takeWhile isDigitChar
    let dir := rest2.drop d2.length
    if d1 ≠ [] && d2 ≠ [] && dir.length ≤ 2 &&
        dir.all (fun c => c == 'n' || c == 's' || c == 'e' || c == 'w') then
      some [String.mk d1, String.mk d2, String.mk dir]
    else none
  | _ => none

/-- `BlockFilter._update_block` (assumes `block_radius` is present in
`f`). -/
def BlockFilter.updateBlock (f : Filt) (block : Block) : Filt :=
  let radius := f.blockRadius.getD ""
  let value := radius ++ " block" ++ (if radius ≠ "1" then "s" else "") ++
    " around " ++ block.pretty_name
  { f with
    locationObject := none
    blockObject := some block
    citySlug := some block.city
    streetSlug := some block.street_slug
    blockRange := some (block.number_str ++ block.dir_url_bit_str)
    label := some "Area"
    short_value := some value
    value := some value
    url := some ("streets=" ++ block.street_slug ++ "," ++
      intToStr block.from_num ++ "-" ++ intToStr block.to_num ++ "," ++
      radius_urlfragment radius) }

/-- `BlockFilter.__init__`.  `block` is the keyword argument; `args`
the positional ones.  The `except (TypeError, ValueError)` branch of
the source reads `self.block_radius` before it was ever assigned, so a
bad radius fragment actually escapes as an `AttributeError`
(`pyError`). -/
def BlockFilter.make (ctx : Context) (req : Request) (args : List String)
    (block : Option Block) : Except FiltErr Filt :=
  let base : Filt :=
    { kind := .block
      sort_value := 200
      name := some "location" }
  let consumed : Except FiltErr (Filt × List String) :=
    match block with
    | some _ =>
      .ok (base, args)
    | none =>
      let cityAndRest : Option (String × List String) :=
        if ctx.multiple_cities then
          match args with
          | c :: rest => some (c, rest)
          | [] => none
        else some ("", args)
      match cityAndRest with
      | none => .error (.filterError "not enough args" none)
      | some (city, rest) =>
        match rest with
        | street :: range :: rest2 =>
          .ok ({ base with
                 citySlug := some city
                 streetSlug := some street
                 blockRange := some range }, rest2)
        | _ => .error (.filterError "not enough args" none)
  match consumed with
  | .error e => .error e
  | .ok (f, rest) =>
    let withRadius : Except FiltErr Filt :=
      match rest with
      | frag :: _ =>
        match radius_from_urlfragment frag with
        | some r => .ok { f with blockRadius := some r }
        | none => .error (.pyError "AttributeError: block_radius")
      | [] =>
        match ctx.block_radius with
        | some r => .ok { f with blockRadius := some r }
        | none =>
          .error (.filterError "missing radius"
            (some (radius_url req.path (block_radius_value req))))
    match withRadius with
    | .error e => .error e
    | .ok f =>
      let f := match block with
        | some b => BlockFilter.updateBlock f b
        | none => f
      match blockRangeGroups (f.blockRange.getD "") with
      | none =>
        .error (.filterError ("Invalid block URL: " ++ f.blockRange.getD "") none)
      | some groups =>
        .ok { f with urlToBlockArgs := some groups, gotArgs := true }

/-! ### Date filters. -/

/-- A positional argument of `DateFilter.__init__`: a `datetime.date`
or a `YYYY-MM-DD` string. -/
inductive DVal where
  | d (v : Date)
  | s (v : String)
deriving DecidableEq, Repr

def DVal.toDate : DVal → Option Date
  | .d v => some v
  | .s v => parseDateStr v

/-- `DateFilter.__init__` (shared with `PubDateFilter` through the
`kind`, `date_field_name` and `argname` parameters). -/
def DateFilter.makeGeneric (kind : FKind) (fieldName argnameStr : String)
    (schema : Option Schema) (args : List DVal) : Except FiltErr Filt :=
  let label := match schema with
    | some s => s.date_name
    | none => "date"
  match args with
  | [a, b] =>
    match a.toDate, b.toDate with
    | some start, some ed =>
      let value :=
        if start = ed then djangoNjY start
        else djangoNjY start ++ " - " ++ djangoNjY ed
      .ok { kind := kind
            sort_value := 1
            name := some "date"
            argname := some argnameStr
            label := some label
            startDate := some start
            endDate := some ed
            gteBound := some start
            ltBound := some ed.nextDay
            dateFieldName := some fieldName
            value := some value
            short_value := some value
            url := some (argnameStr ++ "=" ++ start.ymd ++ "," ++ ed.ymd) }
    | _, _ => .error (.filterError "Missing or invalid date range" none)
  | _ => .error (.filterError "Missing or invalid date range" none)

def DateFilter.make (schema : Option Schema) (args : List DVal) :
    Except FiltErr Filt :=
  DateFilter.makeGeneric .dateKind "item_date" "by-date" schema args

/-- `PubDateFilter.__init__`: `DateFilter.__init__` then the label is
overwritten. -/
def PubDateFilter.make (schema : Option Schema) (args : List DVal) :
    Except FiltErr Filt :=
  match DateFilter.makeGeneric .pubdate "pub_date" "by-pub-date" schema args with
  | .error e => .error e
  | .ok f => .ok { f with label := some "date published" }

/-! ### The FilterChain container.

`FilterChain` subclasses Django's `SortedDict` (an insertion-ordered
dict); it is rendered as an association list in insertion order.  A
chain value is normally a `NewsitemFilter`, but `add`'s final fallback
(`val = values[0]`) can store a plain string, hence `Obj`. -/

inductive Obj where
  | filt (f : Filt)
  | raw (s : String)
deriving DecidableEq, Repr

structure FilterChain where
  items : List (String × Obj)
  base_url : String
  schema : Option Schema
  lookup_descriptions : List Lookup
  request : Request
  context : Context
deriving DecidableEq, Repr

def FilterChain.hasKey (c : FilterChain) (k : String) : Bool :=
  c.items.any (fun kv => kv.1 == k)

def FilterChain.keys (c : FilterChain) : List String :=
  c.items.map Prod.fst

/-- `FilterChain.__setitem__`: raises `DuplicateFilterError` when the
key exists, otherwise appends at the end of the insertion order. -/
def FilterChain.setItem (c : FilterChain) (k : String) (v : Obj) :
    Except FiltErr FilterChain :=
  if c.hasKey k then .error (.duplicateFilterError k)
  else .ok { c with items := c.items ++ [(k, v)] }

/-- `FilterChain.update`: inserts every pair through `__setitem__`. -/
def FilterChain.update (c : FilterChain) :
    List (String × Obj) → Except FiltErr FilterChain
  | [] => .ok c
  | (k, v) :: rest =>
    match c.setItem k v with
    | .error e => .error e
    | .ok c2 => c2.update rest

/-- `del chain[key]`: `none` stands for the `KeyError` on a missing
key. -/
def FilterChain.delItem (c : FilterChain) (k : String) :
    Option FilterChain :=
  if c.hasKey k then
    some { c with items := c.items.eraseP (fun kv => kv.1 == k) }
  else none

/-- The no-argument `FilterChain()` constructor (as `copy` invokes it):
empty container, class-attribute defaults, placeholder request/context
(overwritten field by field by `copy`). -/
def FilterChain.mkEmpty : FilterChain :=
  { items := []
    base_url := ""
    schema := none
    lookup_descriptions := []
    request := ⟨"", none⟩
    context := ⟨none, none, [], false⟩ }

/-- `FilterChain.__init__` with `data=None` (every construction in this
repository): when a schema is given (and truthy), `self.add('schema',
SchemaFilter(...))` runs on the still-empty chain, storing the filter
under the key `'schema'`. -/
def FilterChain.new (req : Request) (ctx : Context) (schema : Option Schema) :
    FilterChain :=
  { items := match schema with
      | some s => [("schema", Obj.filt (SchemaFilter.make s))]
      | none => []
    base_url := ""
    schema := schema
    lookup_descriptions := []
    request := req
    context := ctx }

/-- `FilterChain.copy`: a fresh chain, the shared attributes copied by
reference, a fresh copy of `lookup_descriptions`, and the container
refilled through `update` (hence `__setitem__`). -/
def FilterChain.copy (c : FilterChain) : Except FiltErr FilterChain :=
  let clone0 : FilterChain :=
    { FilterChain.mkEmpty with
      lookup_descriptions := c.lookup_descriptions
      base_url := c.base_url
      schema := c.schema
      request := c.request
      context := c.context }
  clone0.update c.items

/-- `item[1]._sort_value` as sort key; a raw (non-filter) value has no
such attribute. -/
def Obj.sortValue : Obj → Option Int
  | .filt f => some f.sort_value
  | .raw _ => none

def objKey (o : Obj) : Int :=
  match o.sortValue with
  | some v => v
  | none => 0

/-- The ordering `sorted(items, key=lambda item: item[1]._sort_value)`
sorts by. -/
def priLE (a b : String × Obj) : Prop := objKey a.2 ≤ objKey b.2

instance : DecidableRel priLE := fun a b => Int.decLe (objKey a.2) (objKey b.2)

instance : IsTotal (String × Obj) priLE := ⟨fun a b => Int.le_total (objKey a.2) (objKey b.2)⟩

instance : IsTrans (String × Obj) priLE :=
  ⟨fun _ _ _ h1 h2 => Int.le_trans h1 h2⟩

/-- `FilterChain._sorted_items`: Python's `sorted` is a stable sort
keyed on `_sort_value`, so any stable sort — here insertion sort —
computes the same list; a chain holding a raw (non-filter) value
raises `AttributeError`. -/
def FilterChain.sortedItems (c : FilterChain) :
    Except FiltErr (List (String × Obj)) :=
  if c.items.all (fun kv => kv.2.sortValue ≠ none) then
    .ok (c.items.insertionSort priLE)
  else .error (.pyError "AttributeError: _sort_value")

/-- `FilterChain.normalized_clone`: copy, clear, refill in sorted
order. -/
def FilterChain.normalized_clone (c : FilterChain) :
    Except FiltErr FilterChain :=
  match c.copy with
  | .error e => .error e
  | .ok clone =>
    match c.sortedItems with
    | .error e => .error e
    | .ok sorted => ({ clone with items := [] }).update sorted

/-- `FilterChain.apply` iterates `self.normalized_clone().items()`,
threading the queryset through each filter's `apply`; `applySeq` is
exactly that iteration sequence. -/
def FilterChain.applySeq (c : FilterChain) :
    Except FiltErr (List (String × Obj)) :=
  match c.normalized_clone with
  | .error e => .error e
  | .ok clone => .ok clone.items

/-! ### `FilterChain.add` / `replace`. -/

/-- A key passed to `add`/`replace`: a plain string or a
`models.SchemaField`. -/
inductive AddKey where
  | str (s : String)
  | sf (f : SchemaField)
deriving DecidableEq, Repr

/-- A positional value passed to `add`/`replace`: the runtime types
`add` dispatches on, plus the fallback cases (an already-built filter,
or any other object — modelled for strings, the only other value this
repository passes). -/
inductive AddValue where
  | vstr (s : String)
  | vdate (d : Date)
  | vloc (l : Location)
  | vblock (b : Block)
  | vloctype (t : LocationType)
  | vlookup (l : Lookup)
  | vfilt (f : Filt)
deriving DecidableEq, Repr

def AddValue.toLookArg : AddValue → LookArg
  | .vstr s => .slug s
  | .vlookup l => .obj l
  | _ => .badObj

/-- Coercion of an `add` value to the string argument a constructor
expects; a non-string object becomes a sentinel that matches no slug
(Python would fail the same comparisons on the object itself). -/
def AddValue.toStrArg : AddValue → String
  | .vstr s => s
  | _ => "<object>"

def AddValue.toAttVal : AddValue → AttVal
  | .vstr s => .str s
  | .vdate d => .date d
  | _ => .str "<object>"

def AddValue.toDVal : AddValue → DVal
  | .vstr s => DVal.s s
  | .vdate d => DVal.d d
  | _ => DVal.s "<object>"

/-- The final store step of `add`: `if _replace and key in self: del
self[key]` followed by `self[key] = val`. -/
def FilterChain.storeFinal (c : FilterChain) (k : String) (v : Obj)
    (rep : Bool) : Except FiltErr FilterChain :=
  let c2 := if rep && c.hasKey k then (c.delItem k).getD c else c
  c2.setItem k v

/-- The part of `FilterChain.add` after the `SchemaField` branch has
rewritten `key`/`values`: dispatch on the runtime type of
`values[0]`. -/
def FilterChain.addGeneric (c : FilterChain) (key : String)
    (values : List AddValue) (rep : Bool) : Except FiltErr FilterChain :=
  match values with
  | [] => .error (.filterError ("no values passed for arg " ++ key) none)
  | v0 :: vrest =>
    match v0 with
    | .vloc loc =>
      match LocationFilter.make [] (some loc) none with
      | .error e => .error e
      | .ok f => c.storeFinal (f.name.getD "") (.filt f) rep
    | .vblock b =>
      match BlockFilter.make c.context c.request (vrest.map AddValue.toStrArg)
          (some b) with
      | .error e => .error e
      | .ok f => c.storeFinal (f.name.getD "") (.filt f) rep
    | .vloctype lt =>
      match LocationFilter.make (vrest.map AddValue.toStrArg) none (some lt) with
      | .error e => .error e
      | .ok f => c.storeFinal (f.name.getD "") (.filt f) rep
    | .vlookup lk =>
      match LookupFilter.make c.context.db_lookups lk.schema_field
          [LookArg.obj lk] with
      | .error e => .error e
      | .ok f => c.storeFinal key (.filt f) rep
    | .vdate d =>
      let values1 := if values.length == 1 then values ++ [v0] else values
      let expanded : Except FiltErr (List AddValue) :=
        if values1[1]? == some (.vstr "month") then
          let mr := monthrange d.year d.month
          match d.replaceDay mr.1 with
          | none => .error (.pyError "ValueError: day is out of range for month")
          | some d0 =>
            match d0.replaceDay mr.2 with
            | none => .error (.pyError "ValueError: day is out of range for month")
            | some d1 => .ok [.vdate d0, .vdate d1]
        else .ok values1
      match expanded with
      | .error e => .error e
      | .ok vs =>
        if key == "pubdate" then
          match PubDateFilter.make c.schema (vs.map AddValue.toDVal) with
          | .error e => .error e
          | .ok f => c.storeFinal "date" (.filt f) rep
        else
          match DateFilter.make c.schema (vs.map AddValue.toDVal) with
          | .error e => .error e
          | .ok f => c.storeFinal key (.filt f) rep
    | .vfilt f => c.storeFinal key (.filt f) rep
    | .vstr s => c.storeFinal key (.raw s) rep

/-- `FilterChain.add`. -/
def FilterChain.add (c : FilterChain) (key : AddKey)
    (values : List AddValue) (rep : Bool) : Except FiltErr FilterChain :=
  match key with
  | .sf sf =>
    if values = [] ∨ values = [.vstr ""] then
      c.storeFinal sf.slug (.filt (AttributeFilter.make sf)) rep
    else
      let fres : Except FiltErr Filt :=
        if sf.is_lookup then
          LookupFilter.make c.context.db_lookups sf (values.map AddValue.toLookArg)
        else if sf.isTypeBool then
          BoolFilter.make sf (values.map AddValue.toStrArg)
        else if sf.is_searchable then
          TextSearchFilter.make sf (values.map AddValue.toStrArg)
        else
          .ok (AttributeFilter.base sf (values.map AddValue.toAttVal))
      match fres with
      | .error e => .error e
      | .ok f => c.addGeneric sf.slug [.vfilt f] rep
  | .str k => c.addGeneric k values rep

/-- `FilterChain.replace`: delete any existing entry for the key, then
`add` with `_replace=True`.  A `SchemaField` key is never equal to a
string key, so `key in self` is false for it and only `add`'s own
`_replace` handling deletes (by slug). -/
def FilterChain.replace (c : FilterChain) (key : AddKey)
    (values : List AddValue) : Except FiltErr FilterChain :=
  let c2 := match key with
    | .str k => if c.hasKey k then (c.delItem k).getD c else c
    | .sf _ => c
  c2.add key values true

/-! ### `FilterChain.from_request`. -/

/-- One `name=v1,v2,...` clause of the parsing loop; `none` when the
clause has an empty name and is skipped. -/
def parseClause (arg : String) :
    Except FiltErr (Option (String × List String)) :=
  match splitOnce '=' arg with
  | none =>
    .error (.filterError ("Invalid filter parameter " ++ arg ++ ", no equals sign") none)
  | some (a, b) =>
    let argname := pyStrip a
    let argvalues := (splitOnChar ',' b).map pyStrip
    if argname ≠ "" then .ok (some (argname, argvalues)) else .ok none

def parseClauses : List String → Except FiltErr (List (String × List String))
  | [] => .ok []
  | a :: rest =>
    match parseClause a with
    | .error e => .error e
    | .ok none => parseClauses rest
    | .ok (some p) =>
      match parseClauses rest with
      | .error e => .error e
      | .ok ps => .ok (p :: ps)

/-- One `chain[key] = <constructed filter>` store of the
`from_request` dispatch loop: the filter construction may fail, and
`__setitem__` may raise the duplicate-key error.  `sfd` is the registry
returned alongside. -/
def FilterChain.setChain (chain : FilterChain) (k : String)
    (sfd : List (String × SchemaField)) (mk : Except FiltErr Filt) :
    Except FiltErr (FilterChain × List (String × SchemaField)) :=
  match mk with
  | .error e => .error e
  | .ok f =>
    match chain.setItem k (.filt f) with
    | .error e => .error e
    | .ok c2 => .ok (c2, sfd)

/-- The lookup store additionally appends `lookup_filter.look` (when
resolved) to `chain.lookup_descriptions`, after the store succeeded. -/
def FilterChain.setChainLookup (chain : FilterChain) (k : String)
    (sfd : List (String × SchemaField)) (mk : Except FiltErr Filt) :
    Except FiltErr (FilterChain × List (String × SchemaField)) :=
  match mk with
  | .error e => .error e
  | .ok f =>
    match chain.setItem k (.filt f) with
    | .error e => .error e
    | .ok c2 =>
      match f.look with
      | some lk =>
        .ok ({ c2 with lookup_descriptions := c2.lookup_descriptions ++ [lk] }, sfd)
      | none => .ok (c2, sfd)

/-- One iteration of the `while args` dispatch loop of `from_request`.
`req`/`ctx` are `from_request`'s own arguments (the chain itself was
built with `request=None`); the schema-field registry `sfd` is consumed
destructively (`filter_sf_dict.pop`). -/
def FilterChain.dispatchArg (chain : FilterChain) (req : Request)
    (ctx : Context) (sfd : List (String × SchemaField)) (argname : String)
    (argvalues : List String) :
    Except FiltErr (FilterChain × List (String × SchemaField)) :=
  let argvalues := argvalues.filter (fun v => v ≠ "")
  if argname == "by-date" then
    chain.setChain "date" sfd (DateFilter.make chain.schema (argvalues.map DVal.s))
  else if argname == "by-pub-date" then
    chain.setChain "date" sfd (PubDateFilter.make chain.schema (argvalues.map DVal.s))
  else if argname.startsWith "by-" then
    let slug := argname.drop 3
    match sfd.find? (fun p => p.1 == slug) with
    | none => .error (.filterError "Invalid SchemaField slug" none)
    | some (_, sf) =>
      let sfd2 := sfd.eraseP (fun p => p.1 == slug)
      if sf.is_lookup then
        chain.setChainLookup sf.name sfd2
          (LookupFilter.make ctx.db_lookups sf (argvalues.map LookArg.slug))
      else if sf.isTypeBool then
        chain.setChain sf.name sfd2 (BoolFilter.make sf argvalues)
      else
        chain.setChain sf.name sfd2 (TextSearchFilter.make sf argvalues)
  else if argname.startsWith "streets" then
    chain.setChain "location" sfd (BlockFilter.make ctx req argvalues none)
  else if argname.startsWith "locations" then
    chain.setChain "location" sfd (LocationFilter.make argvalues none none)
  else .error (.filterError "Invalid filter type" none)

def FilterChain.processArgs (chain : FilterChain) (req : Request)
    (ctx : Context) (sfd : List (String × SchemaField)) :
    List (String × List String) → Except FiltErr FilterChain
  | [] => .ok chain
  | (n, vs) :: rest =>
    match chain.dispatchArg req ctx sfd n vs with
    | .error e => .error e
    | .ok (c2, sfd2) => c2.processArgs req ctx sfd2 rest

/-- The first loop of `from_request`: percent-decode, strip the
trailing slash, `+` to space, split on `;` and `=`. -/
def fromRequestClauses (argstring : Option String) :
    Except FiltErr (List (String × List String)) :=
  let s1 := plusToSpace (unquote (rstripSlash (argstring.getD "")))
  if s1 ≠ "" && s1 ≠ "filter" then parseClauses (splitOnChar ';' s1)
  else .ok []

/-- `FilterChain.from_request`.  The chain is built as
`klass(schema=context['schema'])`, i.e. with `request=None` and an
empty context of its own, so placeholders stand for those. -/
def FilterChain.from_request (req : Request) (ctx : Context)
    (argstring : Option String) (filter_sf_dict : List (String × SchemaField)) :
    Except FiltErr FilterChain :=
  match fromRequestClauses argstring with
  | .error e => .error e
  | .ok cls =>
    (FilterChain.new ⟨"", none⟩ ⟨none, none, [], false⟩ ctx.schema).processArgs
      req ctx filter_sf_dict cls

/-! ### Breadcrumbs. -/

/-- Python `x or y` on display strings (`None`/`''` are falsy; the
second operand is returned as-is when the first is falsy). -/
def pyOrStr (a b : Option String) : Option String :=
  match a with
  | some s => if s ≠ "" then some s else b
  | none => b

/-- `getattr(filt, 'short_value', '') or getattr(filt, 'value', '') or
getattr(filt, 'label', '')`; a raw string value lacks all three
attributes, so every `getattr` default gives `''`. -/
def labelCandidate : Obj → Option String
  | .filt f => pyOrStr f.short_value (pyOrStr f.value f.label)
  | .raw _ => some ""

/-- `getattr(filt, 'url', None)`. -/
def objUrl : Obj → Option String
  | .filt f => f.url
  | .raw _ => none

/-- Python `';'.join(...)`. -/
def joinSemi : List String → String
  | [] => ""
  | [x] => x
  | x :: y :: xs => x ++ ";" ++ joinSemi (y :: xs)

/-- The crumb-emitting loop of `make_breadcrumbs`, with `filter_params`
as accumulator.  A `None` label hits `continue` (skipping even the
`stop_at` test); an empty label or a `None` url emits nothing but still
honours `stop_at`. -/
def crumbLoop (base : String) (stop : Option String) :
    List (String × Obj) → List String → List (String × String)
  | [], _ => []
  | (k, o) :: rest, params =>
    match labelCandidate o with
    | none => crumbLoop base stop rest params
    | some lbl0 =>
      let lbl := pyTitle lbl0
      let emit := lbl ≠ "" && (objUrl o).isSome
      let params2 := if emit then params ++ [(objUrl o).getD ""] else params
      let crumbs :=
        if emit then [(lbl, base ++ joinSemi params2 ++ "/")]
        else []
      crumbs ++ (if stop == some k then [] else crumbLoop base stop rest params2)

/-- `FilterChain.make_breadcrumbs`: work on a copy; deleting a missing
removal key is logged and ignored; `additions` go through `replace`;
then walk the chain in insertion order. -/
def FilterChain.make_breadcrumbs (c : FilterChain)
    (additions : List (String × List AddValue)) (removals : List String)
    (stop_at : Option String) (base_url : Option String) :
    Except FiltErr (List (String × String)) :=
  let base := match base_url with
    | some b => b
    | none => c.base_url
  match c.copy with
  | .error e => .error e
  | .ok clone =>
    let clone := removals.foldl
      (fun cl k => match cl.delItem k with
        | some cl2 => cl2
        | none => cl) clone
    let withAdds := additions.foldlM
      (fun (cl : FilterChain) kv => cl.replace (.str kv.1) kv.2) clone
    match withAdds with
    | .error e => .error e
    | .ok clone2 => .ok (crumbLoop base stop_at clone2.items [])

/-- `FilterChain.make_url`: the last breadcrumb's URL, else the given
base. -/
def FilterChain.make_url (c : FilterChain)
    (additions : List (String × List AddValue)) (removals : List String)
    (stop_at : Option String) (base_url : Option String) :
    Except FiltErr (Option String) :=
  match c.make_breadcrumbs additions removals stop_at base_url with
  | .error e => .error e
  | .ok crumbs =>
    match crumbs.getLast? with
    | some last => .ok (some last.2)
    | none => .ok base_url

/-! ### Container lemmas. -/

/-- Well-formedness every chain reachable through this module's
operations enjoys: keys unique (guaranteed by `__setitem__`) and only
filter values stored. -/
def FilterChain.wf (c : FilterChain) : Prop :=
  c.keys.Nodup ∧ ∀ kv ∈ c.items, kv.2.sortValue ≠ none

instance (c : FilterChain) : Decidable c.wf := by
  unfold FilterChain.wf
  exact instDecidableAnd

theorem hasKey_iff {c : FilterChain} {k : String} :
    c.hasKey k = true ↔ k ∈ c.keys := by
  simp [FilterChain.hasKey, FilterChain.keys, List.any_eq_true, List.mem_map]

theorem setItem_ok {c : FilterChain} {k : String} {v : Obj}
    (h : k ∉ c.keys) :
    c.setItem k v = .ok { c with items := c.items ++ [(k, v)] } := by
  unfold FilterChain.setItem
  rw [if_neg]
  intro hk
  exact h (hasKey_iff.mp hk)

theorem setItem_error {c : FilterChain} {k : String} {v : Obj}
    (h : k ∈ c.keys) :
    c.setItem k v = .error (.duplicateFilterError k) := by
  unfold FilterChain.setItem
  rw [if_pos (hasKey_iff.mpr h)]

theorem update_ok : ∀ (l : List (String × Obj)) (c : FilterChain),
    (l.map Prod.fst).Nodup → (∀ k ∈ l.map Prod.fst, k ∉ c.keys) →
    c.update l = .ok { c with items := c.items ++ l }
  | [], c, _, _ => by simp [FilterChain.update]
  | (k, v) :: rest, c, hnd, hdisj => by
    have hk : k ∉ c.keys := hdisj k (by simp)
    have hnd2 : (rest.map Prod.fst).Nodup := (List.nodup_cons.mp (by simpa using hnd)).2
    have hkrest : k ∉ rest.map Prod.fst := (List.nodup_cons.mp (by simpa using hnd)).1
    have hdisj2 : ∀ k2 ∈ rest.map Prod.fst,
        k2 ∉ ({ c with items := c.items ++ [(k, v)] } : FilterChain).keys := by
      intro k2 hk2
      simp only [FilterChain.keys, List.map_append] at *
      intro hmem
      rcases List.mem_append.mp hmem with h1 | h1
      · exact hdisj k2 (by simp [hk2]) h1
      · simp at h1
        subst h1
        exact hkrest hk2
    have hrec := update_ok rest { c with items := c.items ++ [(k, v)] } hnd2 hdisj2
    unfold FilterChain.update
    rw [setItem_ok hk]
    show FilterChain.update { c with items := c.items ++ [(k, v)] } rest = _
    rw [hrec]
    simp

theorem copy_ok {c : FilterChain} (h : c.keys.Nodup) : c.copy = .ok c := by
  unfold FilterChain.copy
  rw [update_ok c.items _ h (by intro k hk; simp [FilterChain.keys, FilterChain.mkEmpty])]
  rfl

theorem sortedItems_ok {c : FilterChain}
    (h : ∀ kv ∈ c.items, kv.2.sortValue ≠ none) :
    c.sortedItems = .ok (c.items.insertionSort priLE) := by
  unfold FilterChain.sortedItems
  rw [if_pos]
  simp only [List.all_eq_true, decide_eq_true_eq]
  exact h

theorem normalized_clone_ok {c : FilterChain} (h : c.wf) :
    c.normalized_clone = .ok { c with items := c.items.insertionSort priLE } := by
  have hperm : List.Perm ((c.items.insertionSort priLE).map Prod.fst)
      (c.items.map Prod.fst) := (List.perm_insertionSort priLE c.items).map Prod.fst
  have hnd : ((c.items.insertionSort priLE).map Prod.fst).Nodup :=
    hperm.nodup_iff.mpr h.1
  have hrec := update_ok (c.items.insertionSort priLE)
    { c with items := [] } hnd (by intro k hk; simp [FilterChain.keys])
  unfold FilterChain.normalized_clone
  rw [copy_ok h.1, sortedItems_ok h.2]
  show FilterChain.update { c with items := [] } (c.items.insertionSort priLE) = _
  rw [hrec]
  simp

/-- Stability of the sort, stated as preservation of each priority
class: the subsequence of items at any fixed `_sort_value` is
unchanged. -/
theorem insertionSort_filter_key (l : List (String × Obj)) (p : Int) :
    (l.insertionSort priLE).filter (fun x => objKey x.2 == p) =
      l.filter (fun x => objKey x.2 == p) := by
  have hpair : (l.filter (fun x => objKey x.2 == p)).Pairwise priLE := by
    apply List.pairwise_of_forall_mem_list
    intro a ha b hb
    have ha2 := (List.mem_filter.mp ha).2
    have hb2 := (List.mem_filter.mp hb).2
    simp only [beq_iff_eq] at ha2 hb2
    unfold priLE
    omega
  have hsub : List.Sublist (l.filter (fun x => objKey x.2 == p))
      (l.insertionSort priLE) :=
    List.sublist_insertionSort hpair (List.filter_sublist l)
  have hsub2 := hsub.filter (fun x => objKey x.2 == p)
  rw [List.filter_filter] at hsub2
  have hsame : (l.filter fun x => (objKey x.2 == p) && (objKey x.2 == p)) =
      l.filter (fun x => objKey x.2 == p) := by
    congr 1
    funext x
    exact Bool.and_self _
  rw [hsame] at hsub2
  have hlen : ((l.insertionSort priLE).filter (fun x => objKey x.2 == p)).length =
      (l.filter (fun x => objKey x.2 == p)).length :=
    ((List.perm_insertionSort priLE l).filter _).length_eq
  exact (hsub2.eq_of_length hlen.symm).symm

/-! ### Concrete fixtures used by witnesses and counterexamples. -/

def schema0 : Schema := ⟨"crime", "crime date"⟩

def req0 : Request := ⟨"/crime/filter/", none⟩

def ctx0 : Context := ⟨some schema0, none, [], false⟩

def ltype0 : LocationType := ⟨"neighborhoods", "Neighborhood"⟩

def loc0 : Location := ⟨7, "downtown", "Downtown", ltype0⟩

def sfText : SchemaField :=
  ⟨3, "incident", "incident", "Incident", "Incidents", false, "varchar", true⟩

def sfBool : SchemaField :=
  ⟨4, "arrest", "arrest", "Arrest", "Arrests were made", false, "bool", false⟩

def getFilt (e : Except FiltErr Filt) : Filt :=
  match e with
  | .ok f => f
  | .error _ => SchemaFilter.make ⟨"", ""⟩

def getChain (e : Except FiltErr FilterChain) : FilterChain :=
  match e with
  | .ok c => c
  | .error _ => FilterChain.mkEmpty

/-- A chain holding filters with priorities `[1000, 1, -9999, 200]` in
insertion order (text search, date, schema, location). -/
def chainC1 : FilterChain :=
  { FilterChain.new req0 ctx0 none with
    items := [
      ("incident", .filt (getFilt (TextSearchFilter.make sfText ["fire"]))),
      ("date", .filt (getFilt (DateFilter.make (some schema0)
        [.d ⟨2020, 1, 15⟩, .d ⟨2020, 1, 20⟩]))),
      ("schema", .filt (SchemaFilter.make schema0)),
      ("location", .filt (getFilt (LocationFilter.make [] (some loc0) none)))] }

/-! ### Claim-level helper predicates. -/

/-- The value's `_sort_value` is the one its class declares (true of
every filter the constructors build). -/
def Obj.wfPriorityB : Obj → Bool
  | .filt f => decide (f.sort_value = kindSortValue f.kind)
  | .raw _ => false

def Obj.isSchemaB : Obj → Bool
  | .filt f => decide (f.kind = FKind.schemaKind)
  | .raw _ => false

theorem kindSortValue_ge (k : FKind) : -9999 ≤ kindSortValue k := by
  cases k <;> decide

theorem kindSortValue_min (k : FKind) (h : kindSortValue k = -9999) :
    k = FKind.schemaKind := by
  cases k <;> first
    | rfl
    | exact absurd h (by decide)

/-! ### C1. -/

/-- C1: For every well-formed `FilterChain`, `normalized_clone()` (and
hence `apply()`, which iterates the normalized clone) orders the
filters by ascending numeric `_sort_value` (ties keeping their original
insertion order, stated as preservation of each priority class); and in
a chain of constructor-built filters containing a schema filter, the
schema filter (priority -9999, the minimum) is applied first. -/
theorem normalized_clone_sorts_by_priority (c : FilterChain) (h : c.wf) :
    ∃ cl, c.normalized_clone = .ok cl ∧
      c.applySeq = .ok cl.items ∧
      cl.items.Pairwise priLE ∧
      List.Perm cl.items c.items ∧
      (∀ p : Int, cl.items.filter (fun x => objKey x.2 == p) =
        c.items.filter (fun x => objKey x.2 == p)) ∧
      ((∀ kv ∈ c.items, Obj.wfPriorityB kv.2 = true) →
        ∀ kv0 ∈ c.items, Obj.isSchemaB kv0.2 = true →
        ∃ k f, cl.items.head? = some (k, Obj.filt f) ∧ f.kind = FKind.schemaKind) := by
  refine ⟨_, normalized_clone_ok h, ?_, ?_, ?_, ?_, ?_⟩
  · unfold FilterChain.applySeq
    rw [normalized_clone_ok h]
  · exact List.sorted_insertionSort priLE c.items
  · exact List.perm_insertionSort priLE c.items
  · exact fun p => insertionSort_filter_key c.items p
  · intro hwf kv0 hkv0 hsch
    have hkv0mem : kv0 ∈ List.insertionSort priLE c.items :=
      (List.mem_insertionSort priLE).mpr hkv0
    cases hsort : List.insertionSort priLE c.items with
    | nil => rw [hsort] at hkv0mem; cases hkv0mem
    | cons hd tl =>
      have hpair : List.Pairwise priLE (hd :: tl) := by
        rw [← hsort]; exact List.sorted_insertionSort priLE c.items
      have hhdmem : hd ∈ c.items := by
        have : hd ∈ List.insertionSort priLE c.items := by rw [hsort]; simp
        exact (List.mem_insertionSort priLE).mp this
      have hhdwf := hwf hd hhdmem
      obtain ⟨fh, hfh⟩ : ∃ fh, hd.2 = Obj.filt fh := by
        cases hv : hd.2 with
        | filt f => exact ⟨f, rfl⟩
        | raw s => rw [hv] at hhdwf; simp [Obj.wfPriorityB] at hhdwf
      have hfhval : fh.sort_value = kindSortValue fh.kind := by
        rw [hfh] at hhdwf
        simpa [Obj.wfPriorityB] using hhdwf
      obtain ⟨f0, hf0⟩ : ∃ f0, kv0.2 = Obj.filt f0 := by
        cases hv : kv0.2 with
        | filt f => exact ⟨f, rfl⟩
        | raw s => rw [hv] at hsch; simp [Obj.isSchemaB] at hsch
      have hf0kind : f0.kind = FKind.schemaKind := by
        rw [hf0] at hsch
        simpa [Obj.isSchemaB] using hsch
      have hf0val : f0.sort_value = -9999 := by
        have := hwf kv0 hkv0
        rw [hf0] at this
        simp [Obj.wfPriorityB] at this
        rw [this, hf0kind]
        rfl
      have hhdmin : objKey hd.2 ≤ -9999 := by
        rw [hsort] at hkv0mem
        rcases List.mem_cons.mp hkv0mem with heq | hmemtl
        · rw [← heq, hf0]
          simp [objKey, Obj.sortValue, hf0val]
        · have := (List.pairwise_cons.mp hpair).1 kv0 hmemtl
          unfold priLE at this
          have hk0 : objKey kv0.2 = -9999 := by
            rw [hf0]; simp [objKey, Obj.sortValue, hf0val]
          omega
      have hhdge : -9999 ≤ objKey hd.2 := by
        rw [hfh]
        simp only [objKey, Obj.sortValue]
        rw [hfhval]
        exact kindSortValue_ge fh.kind
      have hhdeq : kindSortValue fh.kind = -9999 := by
        rw [hfh] at hhdmin hhdge
        simp only [objKey, Obj.sortValue] at hhdmin hhdge
        omega
      refine ⟨hd.1, fh, ?_, kindSortValue_min fh.kind hhdeq⟩
      show (hd :: tl).head? = some (hd.1, Obj.filt fh)
      simp [← hfh]

/-- Witness for C1: the concrete chain holding filters with priorities
`[1000, 1, -9999, 200]`; the applied order is `[-9999, 1, 200, 1000]`,
with the schema filter first. -/
theorem normalized_clone_sorts_by_priority_witness :
    chainC1.wf ∧
      (∃ cl, chainC1.normalized_clone = .ok cl ∧
        chainC1.applySeq = .ok cl.items ∧
        cl.items.Pairwise priLE ∧
        List.Perm cl.items chainC1.items ∧
        (∀ p : Int, cl.items.filter (fun x => objKey x.2 == p) =
          chainC1.items.filter (fun x => objKey x.2 == p)) ∧
        ((∀ kv ∈ chainC1.items, Obj.wfPriorityB kv.2 = true) →
          ∀ kv0 ∈ chainC1.items, Obj.isSchemaB kv0.2 = true →
          ∃ k f, cl.items.head? = some (k, Obj.filt f) ∧ f.kind = FKind.schemaKind)) ∧
      (chainC1.applySeq.map (fun l => l.map (fun kv => objKey kv.2)) =
        .ok [-9999, 1, 200, 1000]) :=
  ⟨by decide, normalized_clone_sorts_by_priority chainC1 (by decide), by rfl⟩

/-! ### C2. -/

theorem eraseP_key_not_mem : ∀ {items : List (String × Obj)} {k : String},
    (items.map Prod.fst).Nodup →
    k ∉ (items.eraseP (fun kv => kv.1 == k)).map Prod.fst
  | [], _, _ => by simp
  | a :: rest, k, hnd => by
    have hnd2 : a.1 ∉ rest.map Prod.fst ∧ (rest.map Prod.fst).Nodup :=
      List.nodup_cons.mp (by rw [List.map_cons] at hnd; exact hnd)
    by_cases hk : a.1 = k
    · rw [List.eraseP_cons_of_pos]
      · rw [← hk]; exact hnd2.1
      · simp [hk]
    · rw [List.eraseP_cons_of_neg]
      · simp only [List.map_cons, List.mem_cons]
        rintro (h1 | h1)
        · exact hk h1.symm
        · exact eraseP_key_not_mem hnd2.2 h1
      · simp [hk]

/-- C2: For every well-formed chain and key already present in it,
inserting another value under that key through `__setitem__`, `update`
or `add` raises `DuplicateFilterError` — including the `from_request`
path where `by-date` and `by-pub-date` clauses both map to the key
`'date'`, in either order — while `replace` substitutes the key by
deleting the old entry first. -/
theorem duplicate_key_always_raises (c : FilterChain) (k : String)
    (v : Obj) (f : Filt) (hwf : c.wf) (h : c.hasKey k = true) :
    c.setItem k v = .error (.duplicateFilterError k) ∧
    c.update [(k, v)] = .error (.duplicateFilterError k) ∧
    c.add (.str k) [.vfilt f] false = .error (.duplicateFilterError k) ∧
    c.replace (.str k) [.vfilt f] =
      .ok { c with items := c.items.eraseP (fun kv => kv.1 == k) ++ [(k, .filt f)] } ∧
    FilterChain.from_request req0 ctx0
      (some "by-date=2020-01-15,2020-01-15;by-pub-date=2020-01-01,2020-01-02") [] =
      .error (.duplicateFilterError "date") ∧
    FilterChain.from_request req0 ctx0
      (some "by-pub-date=2020-01-01,2020-01-02;by-date=2020-01-15,2020-01-15") [] =
      .error (.duplicateFilterError "date") := by
  have hmem := hasKey_iff.mp h
  have herr := setItem_error (c := c) (v := v) hmem
  refine ⟨herr, ?_, ?_, ?_, by rfl, by rfl⟩
  · unfold FilterChain.update
    rw [setItem_error hmem]
  · unfold FilterChain.add FilterChain.addGeneric FilterChain.storeFinal
    simp only [Bool.false_and, if_neg Bool.false_ne_true]
    exact setItem_error hmem
  · have hkey2 : k ∉ ({ c with items := c.items.eraseP (fun kv => kv.1 == k) } :
        FilterChain).keys := by
      simp only [FilterChain.keys]
      exact eraseP_key_not_mem hwf.1
    have hhk2 : ({ c with items := c.items.eraseP (fun kv => kv.1 == k) } :
        FilterChain).hasKey k = false := by
      rw [← Bool.not_eq_true]
      intro hco
      exact hkey2 (hasKey_iff.mp hco)
    unfold FilterChain.replace
    show ((if c.hasKey k = true then (c.delItem k).getD c else c).add
      (AddKey.str k) [AddValue.vfilt f] true) = _
    rw [if_pos h]
    unfold FilterChain.delItem
    rw [if_pos h]
    simp only [Option.getD_some]
    show FilterChain.storeFinal
      { c with items := c.items.eraseP (fun kv => kv.1 == k) } k (Obj.filt f) true = _
    unfold FilterChain.storeFinal
    simp only [hhk2, Bool.and_false, Bool.false_eq_true, if_neg, ite_false]
    exact setItem_ok hkey2

/-- Witness for C2 at the concrete chain `chainC1`, key `'date'`. -/
theorem duplicate_key_always_raises_witness :
    chainC1.wf ∧ chainC1.hasKey "date" = true ∧
    (chainC1.setItem "date" (.filt (SchemaFilter.make schema0)) =
        .error (.duplicateFilterError "date") ∧
      chainC1.update [("date", .filt (SchemaFilter.make schema0))] =
        .error (.duplicateFilterError "date") ∧
      chainC1.add (.str "date") [.vfilt (SchemaFilter.make schema0)] false =
        .error (.duplicateFilterError "date") ∧
      chainC1.replace (.str "date") [.vfilt (SchemaFilter.make schema0)] =
        .ok { chainC1 with items :=
          chainC1.items.eraseP (fun kv => kv.1 == "date") ++
            [("date", .filt (SchemaFilter.make schema0))] } ∧
      FilterChain.from_request req0 ctx0
        (some "by-date=2020-01-15,2020-01-15;by-pub-date=2020-01-01,2020-01-02") [] =
        .error (.duplicateFilterError "date") ∧
      FilterChain.from_request req0 ctx0
        (some "by-pub-date=2020-01-01,2020-01-02;by-date=2020-01-15,2020-01-15") [] =
        .error (.duplicateFilterError "date")) :=
  ⟨by decide, by decide,
    duplicate_key_always_raises chainC1 "date"
      (.filt (SchemaFilter.make schema0)) (SchemaFilter.make schema0)
      (by decide) (by decide)⟩

/-! ### C3. -/

/-- C3 (code bug): `FilterChain.add` with `(date(2020, 1, 15), 'month')`
uses the first component of `calendar.monthrange` — the weekday of the
month's first day, 2 for January 2020 — as the start day of the range,
yielding 2020-01-02 .. 2020-01-31 instead of the full calendar month
2020-01-01 .. 2020-01-31; for a month whose first day is a Monday
(June 2020) it even calls `date.replace(day=0)`, an uncaught
`ValueError`. -/
theorem add_month_uses_weekday_as_start_day :
    ((FilterChain.new req0 ctx0 (some schema0)).add (.str "date")
        [.vdate ⟨2020, 1, 15⟩, .vstr "month"] false).map
      (fun c => c.items.map (fun kv => (kv.1, match kv.2 with
        | .filt f => (f.startDate, f.endDate)
        | .raw _ => (none, none)))) =
      .ok [("schema", (none, none)),
           ("date", (some ⟨2020, 1, 2⟩, some ⟨2020, 1, 31⟩))] ∧
    monthrange 2020 1 = (2, 31) ∧
    (FilterChain.new req0 ctx0 (some schema0)).add (.str "date")
        [.vdate ⟨2020, 6, 15⟩, .vstr "month"] false =
      .error (.pyError "ValueError: day is out of range for month") :=
  ⟨rfl, rfl, rfl⟩

/-! ### C4. -/

/-- C4: A `BlockFilter` given street and block range but no radius, in
a context with no `block_radius` default, raises a `FilterError`
carrying a non-null redirect URL, and that URL encodes the concrete
default radius (8 blocks). -/
theorem blockfilter_missing_radius_redirects :
    BlockFilter.make ctx0 req0 ["main-st", "100-200"] none =
      .error (.filterError "missing radius"
        (some (radius_url req0.path (block_radius_value req0)))) ∧
    radius_url req0.path (block_radius_value req0) = "/crime/filter/8-blocks/" ∧
    block_radius_value req0 = "8" ∧
    ctx0.block_radius = none :=
  ⟨rfl, rfl, rfl, rfl⟩

/-! ### C6. -/

theorem daysBeforeMonth_succ (y m : Nat) (h1 : 1 ≤ m) (h2 : m ≤ 11) :
    daysBeforeMonth y (m + 1) = daysBeforeMonth y m + daysInMonth y m := by
  interval_cases m <;> by_cases hl : isLeapYear y <;>
    simp [daysBeforeMonth, daysInMonth, hl]

theorem daysInYear_split (y : Nat) :
    daysBeforeMonth y 12 + daysInMonth y 12 =
      if isLeapYear y then 366 else 365 := by
  by_cases h : isLeapYear y <;>
    simp [daysBeforeMonth, daysInMonth, h]

theorem daysBeforeYear_succ (q : Nat) :
    daysBeforeYear (q + 2) =
      daysBeforeYear (q + 1) + (if isLeapYear (q + 1) then 366 else 365) := by
  have hb : q / 100 ≤ 365 * q + q / 4 + q / 400 := by
    have h1 : q / 100 ≤ q := Nat.div_le_self q 100
    have h2 : q ≤ 365 * q := Nat.le_mul_of_pos_left q (by norm_num)
    exact le_trans (le_trans h1 h2)
      (le_trans (Nat.le_add_right _ _) (Nat.le_add_right _ _))
  unfold daysBeforeYear isLeapYear
  simp only [show q + 2 - 1 = q + 1 from rfl, show q + 1 - 1 = q from rfl,
    Bool.or_eq_true, Bool.and_eq_true, beq_iff_eq, bne_iff_ne]
  by_cases d4 : 4 ∣ (q + 1)
  · by_cases d100 : 100 ∣ (q + 1)
    · by_cases d400 : 400 ∣ (q + 1)
      · rw [Nat.succ_div_of_dvd d4, Nat.succ_div_of_dvd d100,
          Nat.succ_div_of_dvd d400,
          if_pos (Or.inr (Nat.dvd_iff_mod_eq_zero.mp d400)),
          show 365 * (q + 1) + (q / 4 + 1) + (q / 400 + 1) =
            365 * q + q / 4 + q / 400 + 366 + 1 by ring,
          ← Nat.sub_add_comm hb, Nat.add_sub_add_right]
      · rw [Nat.succ_div_of_dvd d4, Nat.succ_div_of_dvd d100,
          Nat.succ_div_of_not_dvd d400,
          if_neg (by
            rintro (⟨h1, h2⟩ | h3)
            · exact h2 (Nat.dvd_iff_mod_eq_zero.mp d100)
            · exact d400 (Nat.dvd_iff_mod_eq_zero.mpr h3)),
          show 365 * (q + 1) + (q / 4 + 1) + q / 400 =
            365 * q + q / 4 + q / 400 + 365 + 1 by ring,
          ← Nat.sub_add_comm hb, Nat.add_sub_add_right]
    · have d400 : ¬ 400 ∣ (q + 1) := fun hd => d100 (dvd_trans (by norm_num) hd)
      rw [Nat.succ_div_of_dvd d4, Nat.succ_div_of_not_dvd d100,
        Nat.succ_div_of_not_dvd d400,
        if_pos (Or.inl ⟨Nat.dvd_iff_mod_eq_zero.mp d4,
          fun hm => d100 (Nat.dvd_iff_mod_eq_zero.mpr hm)⟩),
        show 365 * (q + 1) + (q / 4 + 1) + q / 400 =
          365 * q + q / 4 + q / 400 + 366 by ring,
        ← Nat.sub_add_comm hb]
  · have d100 : ¬ 100 ∣ (q + 1) := fun hd => d4 (dvd_trans (by norm_num) hd)
    have d400 : ¬ 400 ∣ (q + 1) := fun hd => d4 (dvd_trans (by norm_num) hd)
    rw [Nat.succ_div_of_not_dvd d4, Nat.succ_div_of_not_dvd d100,
      Nat.succ_div_of_not_dvd d400,
      if_neg (by
        rintro (⟨h1, h2⟩ | h3)
        · exact d4 (Nat.dvd_iff_mod_eq_zero.mpr h1)
        · exact d400 (Nat.dvd_iff_mod_eq_zero.mpr h3)),
      show 365 * (q + 1) + q / 4 + q / 400 =
        365 * q + q / 4 + q / 400 + 365 by ring,
      ← Nat.sub_add_comm hb]

/-- `end + timedelta(days=1)` really is the next day: one more in
Python's `toordinal` count. -/
theorem toordinal_nextDay {d : Date} (h : d.valid = true) :
    d.nextDay.toordinal = d.toordinal + 1 := by
  obtain ⟨y, m, day⟩ := d
  simp only [Date.valid, Bool.and_eq_true, decide_eq_true_eq] at h
  obtain ⟨⟨⟨⟨hy, hm1⟩, hm2⟩, hd1⟩, hd2⟩ := h
  unfold Date.nextDay
  dsimp only
  split_ifs with h1 h2
  · simp only [Date.toordinal]
    omega
  · have hm11 : m ≤ 11 := by omega
    have hde : day = daysInMonth y m := by omega
    simp only [Date.toordinal]
    rw [daysBeforeMonth_succ y m hm1 hm11]
    omega
  · have hm12 : m = 12 := by omega
    have hde : day = daysInMonth y m := by omega
    simp only [Date.toordinal]
    obtain ⟨q, rfl⟩ : ∃ q, y = q + 1 := ⟨y - 1, by omega⟩
    rw [show q + 1 + 1 = q + 2 from rfl, daysBeforeYear_succ q]
    subst hm12
    by_cases hl : isLeapYear (q + 1) <;>
      simp [daysBeforeMonth, daysInMonth, hl] at hde ⊢ <;> omega

/-- C6: a `DateFilter` (and `PubDateFilter`) built from a start/end
pair stores a query predicate with inclusive lower bound `start` and
exclusive upper bound `end + 1 day` (one `toordinal` step past `end`),
while its display value and URL fragment show `end` itself as
inclusive. -/
theorem datefilter_bounds (schema : Option Schema) (start ed : Date)
    (hv : ed.valid = true) :
    ∃ f g, DateFilter.make schema [.d start, .d ed] = .ok f ∧
      PubDateFilter.make schema [.d start, .d ed] = .ok g ∧
      f.gteBound = some start ∧ f.ltBound = some ed.nextDay ∧
      g.gteBound = some start ∧ g.ltBound = some ed.nextDay ∧
      ed.nextDay.toordinal = ed.toordinal + 1 ∧
      f.dateFieldName = some "item_date" ∧ g.dateFieldName = some "pub_date" ∧
      f.value = some (if start = ed then djangoNjY start
        else djangoNjY start ++ " - " ++ djangoNjY ed) ∧
      f.url = some ("by-date=" ++ start.ymd ++ "," ++ ed.ymd) :=
  ⟨_, _, rfl, rfl, rfl, rfl, rfl, rfl, toordinal_nextDay hv,
    rfl, rfl, rfl, rfl⟩

/-- Witness for C6 at the concrete range 2020-01-01 .. 2020-01-31 (the
stored upper bound is 2020-02-01, exclusive). -/
theorem datefilter_bounds_witness :
    (Date.valid ⟨2020, 1, 31⟩ = true) ∧
    (∃ f g, DateFilter.make (some schema0)
        [.d ⟨2020, 1, 1⟩, .d ⟨2020, 1, 31⟩] = .ok f ∧
      PubDateFilter.make (some schema0)
        [.d ⟨2020, 1, 1⟩, .d ⟨2020, 1, 31⟩] = .ok g ∧
      f.gteBound = some ⟨2020, 1, 1⟩ ∧
      f.ltBound = some (Date.nextDay ⟨2020, 1, 31⟩) ∧
      g.gteBound = some ⟨2020, 1, 1⟩ ∧
      g.ltBound = some (Date.nextDay ⟨2020, 1, 31⟩) ∧
      (Date.nextDay ⟨2020, 1, 31⟩).toordinal =
        Date.toordinal ⟨2020, 1, 31⟩ + 1 ∧
      f.dateFieldName = some "item_date" ∧ g.dateFieldName = some "pub_date" ∧
      f.value = some (if (⟨2020, 1, 1⟩ : Date) = ⟨2020, 1, 31⟩
        then djangoNjY ⟨2020, 1, 1⟩
        else djangoNjY ⟨2020, 1, 1⟩ ++ " - " ++ djangoNjY ⟨2020, 1, 31⟩) ∧
      f.url = some ("by-date=" ++ Date.ymd ⟨2020, 1, 1⟩ ++ "," ++
        Date.ymd ⟨2020, 1, 31⟩)) :=
  ⟨by decide, datefilter_bounds (some schema0) ⟨2020, 1, 1⟩ ⟨2020, 1, 31⟩ (by decide)⟩

/-! ### C7. -/

/-- C7: `BoolFilter` with a single token maps `'yes'` to the predicate
value true, `'no'` to false, `'na'` to None; any other token raises
`FilterError` at construction time. -/
theorem boolfilter_token_semantics (sf : SchemaField) (t : String)
    (h : t ≠ "yes" ∧ t ≠ "no" ∧ t ≠ "na") :
    (∃ f, BoolFilter.make sf ["yes"] = .ok f ∧ f.realVal = some (some true)) ∧
    (∃ f, BoolFilter.make sf ["no"] = .ok f ∧ f.realVal = some (some false)) ∧
    (∃ f, BoolFilter.make sf ["na"] = .ok f ∧ f.realVal = some none) ∧
    BoolFilter.make sf [t] =
      .error (.filterError ("Invalid boolean value " ++ t) none) := by
  refine ⟨⟨_, rfl, rfl⟩, ⟨_, rfl, rfl⟩, ⟨_, rfl, rfl⟩, ?_⟩
  have h1 : (t == "yes") = false := beq_eq_false_iff_ne.mpr h.1
  have h2 : (t == "no") = false := beq_eq_false_iff_ne.mpr h.2.1
  have h3 : (t == "na") = false := beq_eq_false_iff_ne.mpr h.2.2
  unfold BoolFilter.make
  simp [h1, h2, h3]

/-- Witness for C7 at the token `'xyz'` and a concrete boolean schema
field. -/
theorem boolfilter_token_semantics_witness :
    ("xyz" ≠ "yes" ∧ "xyz" ≠ "no" ∧ "xyz" ≠ "na") ∧
    ((∃ f, BoolFilter.make sfBool ["yes"] = .ok f ∧
        f.realVal = some (some true)) ∧
      (∃ f, BoolFilter.make sfBool ["no"] = .ok f ∧
        f.realVal = some (some false)) ∧
      (∃ f, BoolFilter.make sfBool ["na"] = .ok f ∧ f.realVal = some none) ∧
      BoolFilter.make sfBool ["xyz"] =
        .error (.filterError ("Invalid boolean value " ++ "xyz") none)) :=
  ⟨by decide, boolfilter_token_semantics sfBool "xyz" (by decide)⟩

/-! ### C8. -/

/-- C8: a date filter with start = end = 2020-01-15 carries the URL
fragment `by-date=2020-01-15,2020-01-15` and the single-date display
value `Jan. 15, 2020` (not a start - end range string); feeding that
fragment back through `from_request` rebuilds a date filter with the
same start and end. -/
theorem datefilter_single_day_roundtrip :
    (DateFilter.make (some schema0)
        [.d ⟨2020, 1, 15⟩, .d ⟨2020, 1, 15⟩]).map
      (fun f => (f.url, f.value)) =
      .ok (some "by-date=2020-01-15,2020-01-15", some "Jan. 15, 2020") ∧
    "Jan. 15, 2020" = djangoNjY ⟨2020, 1, 15⟩ ∧
    "Jan. 15, 2020" ≠
      djangoNjY ⟨2020, 1, 15⟩ ++ " - " ++ djangoNjY ⟨2020, 1, 15⟩ ∧
    (FilterChain.from_request req0 ctx0
        (some "by-date=2020-01-15,2020-01-15") []).map
      (fun c => c.items.map (fun kv => (kv.1, match kv.2 with
        | .filt f => (f.startDate, f.endDate)
        | .raw _ => ((none : Option Date), (none : Option Date))))) =
      .ok [("schema", (none, none)),
           ("date", (some ⟨2020, 1, 15⟩, some ⟨2020, 1, 15⟩))] :=
  ⟨rfl, rfl, by decide, rfl⟩

/-! ### C9. -/

/-- C9: `copy()` returns a chain with the same container contents and
the same `base_url`/`schema`/`request`/`context` (shared by reference
in Python; the container itself is rebuilt through `update`), and
container mutations of the copy are functions of the copy alone:
deleting a key from the copy yields a chain without that key while the
original still has it. -/
theorem copy_shares_refs_not_container (c : FilterChain)
    (h : c.keys.Nodup) :
    ∃ cl, c.copy = .ok cl ∧ cl.items = c.items ∧
      cl.base_url = c.base_url ∧ cl.schema = c.schema ∧
      cl.request = c.request ∧ cl.context = c.context ∧
      cl.lookup_descriptions = c.lookup_descriptions ∧
      (∀ k cl2, cl.delItem k = some cl2 →
        cl2.hasKey k = false ∧ c.hasKey k = true) ∧
      (∀ k v cl2, cl.setItem k v = .ok cl2 →
        cl2.items = c.items ++ [(k, v)] ∧ c.hasKey k = false) := by
  refine ⟨c, copy_ok h, rfl, rfl, rfl, rfl, rfl, rfl, ?_, ?_⟩
  · intro k cl2 hdel
    unfold FilterChain.delItem at hdel
    by_cases hk : c.hasKey k = true
    · rw [if_pos hk] at hdel
      obtain rfl := Option.some.inj hdel
      refine ⟨?_, hk⟩
      rw [← Bool.not_eq_true]
      intro hco
      exact eraseP_key_not_mem h (hasKey_iff.mp hco)
    · rw [if_neg hk] at hdel
      cases hdel
  · intro k v cl2 hset
    unfold FilterChain.setItem at hset
    by_cases hk : c.hasKey k = true
    · rw [if_pos hk] at hset
      cases hset
    · rw [if_neg hk] at hset
      obtain rfl := Except.ok.inj hset
      exact ⟨rfl, by simpa using hk⟩

/-- Witness for C9 at the concrete chain `chainC1` and key `'date'`. -/
theorem copy_shares_refs_not_container_witness :
    chainC1.keys.Nodup ∧
    (∃ cl, chainC1.copy = .ok cl ∧ cl.items = chainC1.items ∧
      cl.base_url = chainC1.base_url ∧ cl.schema = chainC1.schema ∧
      cl.request = chainC1.request ∧ cl.context = chainC1.context ∧
      cl.lookup_descriptions = chainC1.lookup_descriptions ∧
      (∀ k cl2, cl.delItem k = some cl2 →
        cl2.hasKey k = false ∧ chainC1.hasKey k = true) ∧
      (∀ k v cl2, cl.setItem k v = .ok cl2 →
        cl2.items = chainC1.items ++ [(k, v)] ∧ chainC1.hasKey k = false)) :=
  ⟨by decide, copy_shares_refs_not_container chainC1 (by decide)⟩

/-! ### C10. -/

theorem setItem_shape {c : FilterChain} {k : String} {v : Obj}
    {c2 : FilterChain} (h : c.setItem k v = .ok c2) :
    c2.items = c.items ++ [(k, v)] ∧ c.hasKey k = false := by
  unfold FilterChain.setItem at h
  by_cases hk : c.hasKey k = true
  · rw [if_pos hk] at h
    cases h
  · rw [if_neg hk] at h
    obtain rfl := Except.ok.inj h
    exact ⟨rfl, by simpa using hk⟩

theorem setChain_shape {c : FilterChain} {k : String}
    {sfd sfd2 : List (String × SchemaField)} {mk : Except FiltErr Filt}
    {c2 : FilterChain} (h : c.setChain k sfd mk = .ok (c2, sfd2)) :
    ∃ v, c2.items = c.items ++ [(k, v)] ∧ c.hasKey k = false := by
  unfold FilterChain.setChain at h
  cases mk with
  | error e => cases h
  | ok f =>
    dsimp only at h
    cases hset : c.setItem k (.filt f) with
    | error e => rw [hset] at h; cases h
    | ok c3 =>
      rw [hset] at h
      obtain ⟨rfl, rfl⟩ := Prod.mk.injEq .. ▸ Except.ok.inj h
      exact ⟨.filt f, (setItem_shape hset).1, (setItem_shape hset).2⟩

theorem setChainLookup_shape {c : FilterChain} {k : String}
    {sfd sfd2 : List (String × SchemaField)} {mk : Except FiltErr Filt}
    {c2 : FilterChain} (h : c.setChainLookup k sfd mk = .ok (c2, sfd2)) :
    ∃ v, c2.items = c.items ++ [(k, v)] ∧ c.hasKey k = false := by
  unfold FilterChain.setChainLookup at h
  cases mk with
  | error e => cases h
  | ok f =>
    dsimp only at h
    cases hset : c.setItem k (.filt f) with
    | error e => rw [hset] at h; cases h
    | ok c3 =>
      rw [hset] at h
      cases hlk : f.look with
      | some lk =>
        rw [hlk] at h
        obtain ⟨rfl, rfl⟩ := Prod.mk.injEq .. ▸ Except.ok.inj h
        exact ⟨.filt f, (setItem_shape hset).1, (setItem_shape hset).2⟩
      | none =>
        rw [hlk] at h
        obtain ⟨rfl, rfl⟩ := Prod.mk.injEq .. ▸ Except.ok.inj h
        exact ⟨.filt f, (setItem_shape hset).1, (setItem_shape hset).2⟩

theorem dispatchArg_shape {chain : FilterChain} {req : Request}
    {ctx : Context} {sfd sfd2 : List (String × SchemaField)} {n : String}
    {vs : List String} {c2 : FilterChain}
    (h : chain.dispatchArg req ctx sfd n vs = .ok (c2, sfd2)) :
    ∃ k v, c2.items = chain.items ++ [(k, v)] ∧ chain.hasKey k = false := by
  unfold FilterChain.dispatchArg at h
  dsimp only at h
  split_ifs at h
  · exact ⟨"date", setChain_shape h⟩
  · exact ⟨"date", setChain_shape h⟩
  · cases hf : (sfd.find? (fun p => p.1 == n.drop 3)) with
    | none => rw [hf] at h; cases h
    | some p =>
      rw [hf] at h
      obtain ⟨_, sf⟩ := p
      dsimp only at h
      by_cases hl : sf.is_lookup = true
      · rw [if_pos hl] at h
        exact ⟨sf.name, setChainLookup_shape h⟩
      · rw [if_neg hl] at h
        by_cases hbool : sf.isTypeBool = true
        · rw [if_pos hbool] at h
          exact ⟨sf.name, setChain_shape h⟩
        · rw [if_neg hbool] at h
          exact ⟨sf.name, setChain_shape h⟩
  · exact ⟨"location", setChain_shape h⟩
  · exact ⟨"location", setChain_shape h⟩

theorem hasKey_of_append {c c2 : FilterChain} {l : List (String × Obj)}
    {k : String} (he : c2.items = c.items ++ l) (h : c.hasKey k = true) :
    c2.hasKey k = true := by
  unfold FilterChain.hasKey at h ⊢
  rw [he, List.any_append, h]
  rfl

theorem processArgs_no_schema : ∀ {args : List (String × List String)}
    {chain : FilterChain} {req : Request} {ctx : Context}
    {sfd : List (String × SchemaField)} {c2 : FilterChain},
    chain.hasKey "schema" = true →
    FilterChain.processArgs chain req ctx sfd args = .ok c2 →
    ∃ suffix, c2.items = chain.items ++ suffix ∧
      ∀ kv ∈ suffix, kv.1 ≠ "schema"
  | [], chain, req, ctx, sfd, c2, _, h => by
    unfold FilterChain.processArgs at h
    obtain rfl := Except.ok.inj h
    exact ⟨[], by simp, by simp⟩
  | (n, vs) :: rest, chain, req, ctx, sfd, c2, hhk, h => by
    unfold FilterChain.processArgs at h
    cases hdisp : chain.dispatchArg req ctx sfd n vs with
    | error e => rw [hdisp] at h; cases h
    | ok p =>
      rw [hdisp] at h
      obtain ⟨c3, sfd3⟩ := p
      obtain ⟨k, v, hit, hnk⟩ := dispatchArg_shape hdisp
      have hkne : k ≠ "schema" := by
        intro heq
        rw [heq, hhk] at hnk
        cases hnk
      have hhk3 : c3.hasKey "schema" = true := hasKey_of_append hit hhk
      obtain ⟨suffix, hsuf, hns⟩ := processArgs_no_schema hhk3 h
      refine ⟨(k, v) :: suffix, ?_, ?_⟩
      · rw [hsuf, hit]
        simp
      · intro kv hkv
        rcases List.mem_cons.mp hkv with rfl | hmem
        · exact hkne
        · exact hns kv hmem

/-- C10: a chain constructed with a non-None (truthy) schema contains,
before anything else, exactly one entry under the key `'schema'`
holding the `SchemaFilter` for that schema; one constructed without a
schema holds no entry at all; and every chain `from_request` returns
(it always passes the context's schema) has the schema entry first and
exactly once. -/
theorem chain_schema_entry_invariant (req : Request) (ctx : Context)
    (s : Schema) (argstring : Option String)
    (sfd : List (String × SchemaField)) (c : FilterChain)
    (hs : ctx.schema = some s)
    (hok : FilterChain.from_request req ctx argstring sfd = .ok c) :
    (FilterChain.new req ctx (some s)).items =
      [("schema", .filt (SchemaFilter.make s))] ∧
    (FilterChain.new req ctx none).items = [] ∧
    c.items.head? = some ("schema", .filt (SchemaFilter.make s)) ∧
    c.items.countP (fun kv => kv.1 == "schema") = 1 := by
  unfold FilterChain.from_request at hok
  rw [hs] at hok
  cases hcl : fromRequestClauses argstring with
  | error e => rw [hcl] at hok; cases hok
  | ok cls =>
    rw [hcl] at hok
    dsimp only at hok
    have hstart : (FilterChain.new ⟨"", none⟩ ⟨none, none, [], false⟩
        (some s)).hasKey "schema" = true := rfl
    obtain ⟨suffix, hsuf, hns⟩ := processArgs_no_schema hstart hok
    have hitems : c.items = ("schema", Obj.filt (SchemaFilter.make s)) :: suffix := by
      rw [hsuf]
      rfl
    refine ⟨rfl, rfl, ?_, ?_⟩
    · rw [hitems]
      rfl
    · rw [hitems, List.countP_cons]
      have h0 : suffix.countP (fun kv => kv.1 == "schema") = 0 := by
        rw [List.countP_eq_zero]
        intro kv hkv
        simpa using hns kv hkv
      rw [h0]
      rfl

/-- Witness for C10 at a concrete `from_request` call. -/
theorem chain_schema_entry_invariant_witness :
    ctx0.schema = some schema0 ∧
    FilterChain.from_request req0 ctx0 (some "by-date=2020-01-15,2020-01-15") [] =
      .ok (getChain (FilterChain.from_request req0 ctx0
        (some "by-date=2020-01-15,2020-01-15") [])) ∧
    ((FilterChain.new req0 ctx0 (some schema0)).items =
        [("schema", .filt (SchemaFilter.make schema0))] ∧
      (FilterChain.new req0 ctx0 none).items = [] ∧
      (getChain (FilterChain.from_request req0 ctx0
        (some "by-date=2020-01-15,2020-01-15") [])).items.head? =
          some ("schema", .filt (SchemaFilter.make schema0)) ∧
      (getChain (FilterChain.from_request req0 ctx0
        (some "by-date=2020-01-15,2020-01-15") [])).items.countP
          (fun kv => kv.1 == "schema") = 1) :=
  ⟨rfl, rfl,
    chain_schema_entry_invariant req0 ctx0 schema0
      (some "by-date=2020-01-15,2020-01-15") []
      (getChain (FilterChain.from_request req0 ctx0
        (some "by-date=2020-01-15,2020-01-15") [])) rfl rfl⟩

/-! ### C5. -/

/-- Whether a chain entry produces a breadcrumb: a truthy (after
`.title()`) label and a non-None url. -/
def emitsB (o : Obj) : Bool :=
  match labelCandidate o with
  | none => false
  | some l => decide (pyTitle l ≠ "") && (objUrl o).isSome

theorem joinSemi_append_singleton : ∀ (l : List String) (x : String),
    l ≠ [] → joinSemi (l ++ [x]) = joinSemi l ++ ";" ++ x
  | [], _, h => absurd rfl h
  | [_], _, _ => rfl
  | a :: b :: rest, x, _ => by
    show joinSemi (a :: ((b :: rest) ++ [x])) = _
    have hrec := joinSemi_append_singleton (b :: rest) x (by simp)
    show a ++ ";" ++ joinSemi ((b :: rest) ++ [x]) = a ++ ";" ++ joinSemi (b :: rest) ++ ";" ++ x
    rw [hrec]
    simp [String.append_assoc]

/-- Projection of the crumb loop onto labels: one crumb per emitting
entry, in order. -/
theorem crumbLoop_map_fst (base : String) : ∀ (items : List (String × Obj))
    (params : List String),
    (crumbLoop base none items params).map Prod.fst =
      (items.filter (fun kv => emitsB kv.2)).map
        (fun kv => pyTitle ((labelCandidate kv.2).getD ""))
  | [], _ => rfl
  | (k, o) :: rest, params => by
    unfold crumbLoop
    cases hl : labelCandidate o with
    | none =>
      have he : emitsB o = false := by unfold emitsB; rw [hl]
      rw [List.filter_cons_of_neg (by simpa using he)]
      exact crumbLoop_map_fst base rest params
    | some lbl0 =>
      dsimp only
      rw [show ((none : Option String) == some k) = false from rfl,
        if_neg Bool.false_ne_true]
      by_cases hemit : (decide (pyTitle lbl0 ≠ "") && (objUrl o).isSome) = true
      · have he : emitsB o = true := by
          unfold emitsB
          rw [hl]
          exact hemit
        rw [if_pos hemit, if_pos hemit,
          List.filter_cons_of_pos (by simpa using he)]
        simp only [List.singleton_append, List.map_cons]
        rw [crumbLoop_map_fst base rest (params ++ [(objUrl o).getD ""]), hl]
        rfl
      · have he : emitsB o = false := by
          unfold emitsB
          rw [hl]
          simpa using hemit
        rw [if_neg hemit, if_neg hemit,
          List.filter_cons_of_neg (by simpa using he)]
        simp only [List.nil_append]
        exact crumbLoop_map_fst base rest params

/-- How one breadcrumb URL relates to the next: the former is some `s`
followed by the trailing `'/'`, and the latter extends `s` with `';'`
and more text — so the former minus its trailing slash is a strict
prefix of the latter. -/
def urlStep (a b : String × String) : Prop :=
  ∃ s t, a.2 = s ++ "/" ∧ b.2 = s ++ ";" ++ t

theorem crumbLoop_chain_aux (base : String) : ∀ (items : List (String × Obj))
    (params : List String),
    List.Chain' urlStep (crumbLoop base none items params) ∧
    (∀ cb ∈ (crumbLoop base none items params).head?, ∃ u,
      cb.2 = base ++ joinSemi (params ++ [u]) ++ "/")
  | [], params => ⟨List.chain'_nil, by simp [crumbLoop]⟩
  | (k, o) :: rest, params => by
    unfold crumbLoop
    cases hl : labelCandidate o with
    | none => exact crumbLoop_chain_aux base rest params
    | some lbl0 =>
      dsimp only
      rw [show ((none : Option String) == some k) = false from rfl,
        if_neg Bool.false_ne_true]
      by_cases hemit : (decide (pyTitle lbl0 ≠ "") && (objUrl o).isSome) = true
      · rw [if_pos hemit, if_pos hemit]
        obtain ⟨ihchain, ihhead⟩ :=
          crumbLoop_chain_aux base rest (params ++ [(objUrl o).getD ""])
        constructor
        · rw [List.singleton_append, List.chain'_cons']
          refine ⟨?_, ihchain⟩
          intro y hy
          obtain ⟨u2, hu2⟩ := ihhead y hy
          refine ⟨base ++ joinSemi (params ++ [(objUrl o).getD ""]), u2 ++ "/",
            by simp [String.append_assoc], ?_⟩
          rw [hu2, joinSemi_append_singleton (params ++ [(objUrl o).getD ""]) u2
            (by simp)]
          simp [String.append_assoc]
        · intro cb hcb
          rw [List.singleton_append, List.head?_cons] at hcb
          obtain rfl := Option.mem_some_iff.mp hcb
          exact ⟨(objUrl o).getD "", rfl⟩
      · rw [if_neg hemit, if_neg hemit]
        simp only [List.nil_append]
        exact crumbLoop_chain_aux base rest params

theorem eraseP_eq_filter_of_nodup : ∀ {items : List (String × Obj)}
    (k : String), (items.map Prod.fst).Nodup →
    items.eraseP (fun kv => kv.1 == k) =
      items.filter (fun kv => !(kv.1 == k))
  | [], _, _ => rfl
  | a :: rest, k, hnd => by
    have hnd2 : a.1 ∉ rest.map Prod.fst ∧ (rest.map Prod.fst).Nodup :=
      List.nodup_cons.mp (by rw [List.map_cons] at hnd; exact hnd)
    by_cases hk : a.1 = k
    · rw [List.eraseP_cons_of_pos (by simp [hk]),
        List.filter_cons_of_neg (by simp [hk])]
      rw [List.filter_eq_self.mpr]
      intro kv hkv
      have hne : kv.1 ≠ k := by
        intro he
        exact hnd2.1 (hk ▸ he ▸ List.mem_map_of_mem Prod.fst hkv)
      simpa using hne
    · rw [List.eraseP_cons_of_neg (by simp [hk]),
        List.filter_cons_of_pos (by simp [hk])]
      rw [eraseP_eq_filter_of_nodup k hnd2.2]

/-- The removal fold of `make_breadcrumbs` (`del clone[key]` with
`KeyError` ignored) drops exactly the entries whose keys are listed. -/
theorem removals_fold_items : ∀ (ks : List String) (c : FilterChain),
    c.keys.Nodup →
    (ks.foldl (fun cl k => match cl.delItem k with
      | some cl2 => cl2
      | none => cl) c).items =
      c.items.filter (fun kv => !(ks.contains kv.1))
  | [], c, _ => by simp
  | k :: ks, c, hnd => by
    rw [List.foldl_cons]
    have hstep : (match c.delItem k with
        | some cl2 => cl2
        | none => c) =
        { c with items := c.items.filter (fun kv => !(kv.1 == k)) } := by
      unfold FilterChain.delItem
      by_cases hk : c.hasKey k = true
      · rw [if_pos hk]
        dsimp only
        rw [eraseP_eq_filter_of_nodup k hnd]
      · rw [if_neg hk]
        dsimp only
        have hself : c.items.filter (fun kv => !(kv.1 == k)) = c.items := by
          apply List.filter_eq_self.mpr
          intro kv hkv
          have hne : kv.1 ≠ k := by
            intro he
            apply hk
            exact hasKey_iff.mpr (he ▸ List.mem_map_of_mem Prod.fst hkv)
          simpa using hne
        rw [hself]
    rw [hstep]
    have hnd2 : ({ c with items := c.items.filter (fun kv => !(kv.1 == k)) } :
        FilterChain).keys.Nodup := by
      simp only [FilterChain.keys]
      exact hnd.sublist ((List.filter_sublist c.items).map Prod.fst)
    rw [removals_fold_items ks _ hnd2]
    show (c.items.filter (fun kv => !(kv.1 == k))).filter
        (fun kv => !(ks.contains kv.1)) = _
    rw [List.filter_filter]
    congr 1
    funext kv
    by_cases h1 : kv.1 = k <;> by_cases h2 : kv.1 ∈ ks <;>
      simp [h1, h2, List.contains_cons]

/-- C5 (amended): `make_breadcrumbs(removals=ks)` works on a copy of
the chain (the chain itself is untouched); removal keys absent from
the chain are ignored, so the crumbs are those of the remaining
entries; one `(label, URL)` crumb is emitted per remaining entry whose
label is truthy and whose `url` is not None — a schema filter has
neither and yields no breadcrumb — walking in insertion order; and
each crumb's URL minus its trailing `'/'`, extended with `';'`, begins
the next crumb's URL (the URLs are cumulative, but their trailing
slash means they are not literal string prefixes of each other). -/
theorem make_breadcrumbs_removals_amended (c : FilterChain)
    (ks : List String) (h : c.wf) :
    ∃ crumbs, c.make_breadcrumbs [] ks none none = .ok crumbs ∧
      crumbs = crumbLoop c.base_url none
        (c.items.filter (fun kv => !(ks.contains kv.1))) [] ∧
      crumbs.map Prod.fst =
        ((c.items.filter (fun kv => !(ks.contains kv.1))).filter
          (fun kv => emitsB kv.2)).map
          (fun kv => pyTitle ((labelCandidate kv.2).getD "")) ∧
      List.Chain' urlStep crumbs := by
  refine ⟨_, ?_, rfl, ?_, ?_⟩
  · unfold FilterChain.make_breadcrumbs
    rw [copy_ok h.1]
    dsimp only
    rw [List.foldlM_nil]
    show Except.ok (crumbLoop c.base_url none
      ((List.foldl (fun cl k => match cl.delItem k with
        | some cl2 => cl2
        | none => cl) c ks)).items []) = _
    rw [removals_fold_items ks c h.1]
  · exact crumbLoop_map_fst c.base_url _ []
  · exact (crumbLoop_chain_aux c.base_url _ []).1

/-- A chain holding schema + date + location filters, in that insertion
order (`add` stores the location filter under its `name`,
`'location'`). -/
def chainC5 : FilterChain :=
  getChain (((FilterChain.new req0 ctx0 (some schema0)).add
    (.str "date") [.vdate ⟨2020, 1, 15⟩] false).bind
    (fun c => c.add (.str "location") [.vloc loc0] false))

/-- Counterexample to C5 as stated: on the chain schema+date+location
with `removals=['date']`, only ONE breadcrumb is produced — for the
location filter; the schema filter, whose `short_value`/`value`/`label`
and `url` are all None, is skipped, so no breadcrumb for it exists even
though the chain holds the `'schema'` key.  And with no removals the
first breadcrumb's URL (ending in `'/'`) is not a string prefix of the
second (which continues with `';'`). -/
theorem make_breadcrumbs_counterexample :
    chainC5.hasKey "schema" = true ∧
    chainC5.make_breadcrumbs [] ["date"] none none =
      .ok [("Downtown", "locations=neighborhoods,downtown/")] ∧
    chainC5.make_breadcrumbs [] [] none none =
      .ok [("Jan. 15, 2020", "by-date=2020-01-15,2020-01-15/"),
           ("Downtown",
            "by-date=2020-01-15,2020-01-15;locations=neighborhoods,downtown/")] ∧
    (∀ t : String, ¬ ("by-date=2020-01-15,2020-01-15/" ++ t =
      "by-date=2020-01-15,2020-01-15;locations=neighborhoods,downtown/")) := by
  refine ⟨rfl, rfl, rfl, ?_⟩
  intro t h
  have hd := congrArg String.data h
  rw [String.data_append] at hd
  have h29 := congrArg (fun l => l[29]?) hd
  simp only at h29
  rw [List.getElem?_append_left (by decide)] at h29
  exact absurd h29 (by decide)

/-- Witness for the amended C5 at the concrete chain
schema+date+location with `removals=['date']`. -/
theorem make_breadcrumbs_removals_amended_witness :
    chainC5.wf ∧
    (∃ crumbs, chainC5.make_breadcrumbs [] ["date"] none none = .ok crumbs ∧
      crumbs = crumbLoop chainC5.base_url none
        (chainC5.items.filter (fun kv => !(["date"].contains kv.1))) [] ∧
      crumbs.map Prod.fst =
        ((chainC5.items.filter (fun kv => !(["date"].contains kv.1))).filter
          (fun kv => emitsB kv.2)).map
          (fun kv => pyTitle ((labelCandidate kv.2).getD "")) ∧
      List.Chain' urlStep crumbs) :=
  ⟨by decide, make_breadcrumbs_removals_amended chainC5 ["date"] (by decide)⟩

end Schemafilters
